import Mathlib

/-!
# c-workshop: a single-request HTTP file server (`src/lib.c`)

A shallow embedding of the request pipeline of `lib.c`:

* `to_path` parses the request line in place and returns a pointer into it;
* `mime_from_path` maps a file extension to a content type;
* `write_all`, `send_simple_response` and `handle_req` talk to a socket and a
  file through the system calls `open`, `fstat`, `read`, `write`, `close`.

Conventions of the embedding.

* A C `char` is a byte, held as a `Nat`; `str "abc"` is the byte list of an
  ASCII literal (without terminator).
* A block of memory (a `char` array) is a `List Nat` whose length is the size
  of the array; a pointer into it is an index.  An access outside the array is
  undefined behaviour in C and is reported as `fault`.
* The outside world is scripted: a socket is the list of the results of its
  next `write` calls, an open file is the list of the results of its next
  `read` calls.  Every system call made by the code is recorded as an `Event`.
-/

namespace CWorkshop

/-! ## Bytes and C strings -/

/-- Bytes of an ASCII string literal, without the terminating NUL. -/
def str (s : String) : List Nat := s.toList.map Char.toNat

/-- The C string found at the start of a block of memory: the bytes before the
first NUL, or `none` when the block holds no NUL (the string would run out of
the block). -/
def cstr : List Nat → Option (List Nat)
  | [] => none
  | c :: rest => if c = 0 then some [] else (cstr rest).map (c :: ·)

/-- The C string a pointer `p` into the block `mem` points to. -/
def c_string (mem : List Nat) (p : Nat) : Option (List Nat) := cstr (mem.drop p)

/-- `memcpy(mem + dst, src, src.length)` on a block that has room for it. -/
def memcpy (mem : List Nat) (dst : Nat) (src : List Nat) : List Nat :=
  mem.take dst ++ src ++ mem.drop (dst + src.length)

/-! ## `to_path` (lib.c, lines 186-213) -/

/-- `#define DEFAULT_FILE "index.html"`. -/
def DEFAULT_FILE : List Nat := str "index.html"

/-- Outcome of one of the two scanning loops of `to_path`. -/
inductive Scan where
  /-- the loop stopped on a space, at this index -/
  | found (i : Nat)
  /-- the loop met a NUL byte first: `return nullptr` -/
  | nul
  /-- the loop ran out of the block -/
  | fault
  deriving DecidableEq, Repr

/-- The loop `for (p = ...; *p != ' '; p++) { if (!*p) return nullptr; }`.
The first argument is the memory from `p` onwards, the second the index of
`p` in the block. -/
def scan : List Nat → Nat → Scan
  | [], _ => .fault
  | c :: rest, i =>
    if c = 32 then .found i
    else if c = 0 then .nul
    else scan rest (i + 1)

/-- What a call of `to_path` does. -/
inductive PathResult where
  /-- `return nullptr` -/
  | null
  /-- `return start`, together with the block as the call leaves it -/
  | ptr (start : Nat) (mem : List Nat)
  /-- an access outside the block -/
  | fault
  deriving DecidableEq, Repr

/-- `char * to_path(char * req)`; `req` points to the start of the block. -/
def to_path (req : List Nat) : PathResult :=
  match scan req 0 with
  | .nul => .null
  | .fault => .fault
  | .found s =>
    -- start += 2;  skip over the space and '/'
    let start := s + 2
    match scan (req.drop start) start with
    | .nul => .null
    | .fault => .fault
    | .found e =>
      -- if (end[-1] != '/') { end[0] = '/'; end++; }
      match req[e - 1]? with
      | none => .fault
      | some c =>
        let req1 := if c ≠ 47 then req.set e 47 else req
        let e1 := if c ≠ 47 then e + 1 else e
        -- memcpy(end, DEFAULT_FILE, strlen(DEFAULT_FILE) + 1);
        if e1 + (DEFAULT_FILE.length + 1) ≤ req1.length then
          .ptr start (memcpy req1 e1 (DEFAULT_FILE ++ [0]))
        else .fault

/-! ## `mime_from_path` (lib.c, lines 54-72)

A path is given by the bytes of its C string (the bytes before the
terminator). -/

/-- `strrchr(s, c)` for a byte `c` other than NUL: the part of the string `s`
that starts at the last occurrence of `c`, or `none` (a null pointer) when `c`
does not occur. -/
def strrchr : List Nat → Nat → Option (List Nat)
  | [], _ => none
  | x :: xs, c =>
    match strrchr xs c with
    | some r => some r
    | none => if x = c then some (x :: xs) else none

/-- `static const char* mime_from_path(const char* path)`; `!strcmp(ext, lit)`
is equality of the two strings. -/
def mime_from_path (path : List Nat) : List Nat :=
  match strrchr path 46 with
  | none => str "application/octet-stream"
  | some dot =>
    -- ext++;
    let ext := dot.drop 1
    if ext = str "html" ∨ ext = str "htm" then str "text/html; charset=utf-8"
    else if ext = str "css" then str "text/css; charset=utf-8"
    else if ext = str "js" then str "application/javascript; charset=utf-8"
    else if ext = str "json" then str "application/json; charset=utf-8"
    else if ext = str "txt" then str "text/plain; charset=utf-8"
    else if ext = str "svg" then str "image/svg+xml"
    else if ext = str "png" then str "image/png"
    else if ext = str "jpg" ∨ ext = str "jpeg" then str "image/jpeg"
    else if ext = str "gif" then str "image/gif"
    else if ext = str "ico" then str "image/x-icon"
    else str "application/octet-stream"

/-! ## System calls and their trace -/

/-- Result of the next `write` call on the socket. -/
inductive WriteResult where
  /-- the call succeeds and transfers at most `cap` of the bytes offered -/
  | accept (cap : Nat)
  /-- the call returns -1 -/
  | fail
  deriving DecidableEq, Repr

/-- Result of the next `read` call on the file.  The code asks for at most
`MAX_BUFFER_SIZE` (4096) bytes per call; nothing below depends on the size of
the chunks delivered. -/
inductive ReadResult where
  /-- the call succeeds and delivers these bytes (none: end of file) -/
  | data (bytes : List Nat)
  /-- the call returns -1 -/
  | fail
  deriving DecidableEq, Repr

/-- An open file: what `fstat`, the successive `read` calls and `close` will
report.  Once the `reads` are used up, `read` returns 0 (end of file). -/
structure File where
  /-- `stats.st_size` as set by `fstat`, or `none` when `fstat` returns -1 -/
  st_size : Option Nat
  reads : List ReadResult
  /-- whether `close` returns 0 -/
  close_ok : Bool
  deriving DecidableEq, Repr

/-- Result of `open(path, O_RDONLY)`. -/
inductive OpenResult where
  | fd (f : File)
  /-- the call returns -1 and sets `errno` -/
  | error (errno : Nat)
  deriving DecidableEq, Repr

/-- The world around one call of `handle_req`: the file system, as the result
of `open` on each path, and the socket, as the results of its next `write`
calls.  Once these are used up, `write` transfers all it is offered. -/
structure World where
  fs : List Nat → OpenResult
  sock : List WriteResult

/-- A system call (or library call with an effect) made by the code. -/
inductive Event where
  | sys_open (path : List Nat)
  | sys_fstat
  /-- `read(fd, buffer, sizeof(buffer))` and the value it returned -/
  | sys_read (ret : Int)
  /-- `write(socket, buf, len)`: the `len` bytes offered and the value returned -/
  | sys_write (buf : List Nat) (ret : Int)
  | sys_close
  | perror
  deriving DecidableEq, Repr

/-- `errno` value for a missing file. -/
def ENOENT : Nat := 2

/-- `errno` value for a path through something that is not a directory. -/
def ENOTDIR : Nat := 20

/-- `#define MAX_HEADER_SIZE 256`. -/
def MAX_HEADER_SIZE : Nat := 256

/-- The value `write(socket, buf, len)` returns on a result `r` of the socket. -/
def sys_write (r : WriteResult) (len : Nat) : Int :=
  match r with
  | .accept cap => min cap len
  | .fail => -1

/-- The bytes one event puts on the socket. -/
def Event.sent : Event → List Nat
  | .sys_write buf ret => buf.take ret.toNat
  | _ => []

/-- All bytes a trace puts on the socket, in order. -/
def transmitted : List Event → List Nat
  | [] => []
  | e :: es => e.sent ++ transmitted es

/-- The buffers offered to `write`, call by call. -/
def offered : List Event → List (List Nat)
  | [] => []
  | .sys_write buf _ :: es => buf :: offered es
  | _ :: es => offered es

/-! ## `write_all` (lib.c, lines 29-37) -/

/-- `static int write_all(int fd, const char *buf, size_t len)`, with `buf` the
`len` bytes to write.  Returns the return value, the socket afterwards and the
calls made. -/
def write_all : List WriteResult → List Nat → Int × List WriteResult × List Event
  | [], buf =>
    -- the socket takes whatever it is offered
    if buf.length = 0 then (0, [], [])
    else (0, [], [.sys_write buf buf.length])
  | r :: sock, buf =>
    -- while (len)
    if buf.length = 0 then (0, r :: sock, [])
    else
      -- ssize_t n = write(fd, buf, len);
      let n := sys_write r buf.length
      -- if (n < 0) { return -1; }
      if n < 0 then (-1, sock, [.sys_write buf n])
      else
        -- buf += n; len -= (size_t)n;
        let res := write_all sock (buf.drop n.toNat)
        (res.1, res.2.1, .sys_write buf n :: res.2.2)

/-! ## `send_simple_response` (lib.c, lines 90-115) -/

/-- The conversion `%zu`: decimal digits of a `size_t`. -/
def fmt_zu (n : Nat) : List Nat := str (Nat.repr n)

/-- Return value of `snprintf`: the length of the full text, or a negative
value when that length does not fit an `int`. -/
def snprintf_ret (text : List Nat) : Int :=
  if text.length ≤ 2147483647 then text.length else -1

/-- What `snprintf(header, sizeof(header), ...)` leaves in `header`: the text,
cut to leave room for the terminator. -/
def snprintf_buf (size : Nat) (text : List Nat) : List Nat := text.take (size - 1)

/-- The text the format string of `send_simple_response` renders:
`"%s\r\nContent-Type: %s\r\nContent-Length: %zu\r\nConnection: close\r\n\r\n"`. -/
def simple_header (status_line content_type : List Nat) (body_len : Nat) : List Nat :=
  status_line ++ str "\r\n"
  ++ str "Content-Type: " ++ content_type ++ str "\r\n"
  ++ str "Content-Length: " ++ fmt_zu body_len ++ str "\r\n"
  ++ str "Connection: close\r\n"
  ++ str "\r\n"

/-- `static void send_simple_response(int socket, const char *status_line,
const char *content_type, const char *body)`; `none` is a null pointer.
Returns the socket afterwards and the calls made. -/
def send_simple_response (sock : List WriteResult) (status_line : List Nat)
    (content_type : Option (List Nat)) (body : Option (List Nat)) :
    List WriteResult × List Event :=
  -- size_t body_len = body ? strlen(body) : 0;
  let body_len : Nat := match body with
    | some b => b.length
    | none => 0
  let text := simple_header status_line
    (match content_type with
      | some t => t
      | none => str "text/plain; charset=utf-8")
    body_len
  let header := snprintf_buf MAX_HEADER_SIZE text
  let hdr_len := snprintf_ret text
  -- if (hdr_len < 0 || (size_t)hdr_len >= sizeof(header)) { return; }
  if hdr_len < 0 ∨ hdr_len ≥ MAX_HEADER_SIZE then (sock, [])
  else
    -- if (write_all(socket, header, (size_t)hdr_len) == -1) { return; }
    let w := write_all sock (header.take hdr_len.toNat)
    if w.1 = -1 then (w.2.1, w.2.2)
    else
      -- if (body_len) { (void)write_all(socket, body, body_len); }
      if body_len ≠ 0 then
        let w2 := write_all w.2.1 ((body.getD []).take body_len)
        (w2.2.1, w.2.2 ++ w2.2.2)
      else (w.2.1, w.2.2)

/-! ## `handle_req` (lib.c, lines 224-314) -/

/-- The loop `while ((bytes_read = read(fd, buffer, sizeof(buffer))) > 0)` of
`handle_req`, up to and including `close(fd)`.  Returns the calls made. -/
def stream_file (close_ok : Bool) : List ReadResult → List WriteResult → List Event
  | [], _ =>
    -- end of file: read returns 0, the loop ends
    .sys_read 0 :: .sys_close :: (if close_ok then [] else [.perror])
  | .fail :: _, _ =>
    -- read returns -1, the loop ends; nothing is sent
    .sys_read (-1) :: .sys_close :: (if close_ok then [] else [.perror])
  | .data bytes :: reads, sock =>
    if bytes.length = 0 then
      .sys_read 0 :: .sys_close :: (if close_ok then [] else [.perror])
    else
      -- if (write_all(socket, buffer, (size_t)bytes_read) == -1) { close(fd); return; }
      let w := write_all sock bytes
      if w.1 = -1 then .sys_read bytes.length :: (w.2.2 ++ [.sys_close])
      else .sys_read bytes.length :: (w.2.2 ++ stream_file close_ok reads w.2.1)

/-- The text the format string of the success path of `handle_req` renders:
`"HTTP/1.1 200 OK\r\nContent-Type: %s\r\nContent-Length: %zu\r\nConnection: close\r\n\r\n"`. -/
def ok_header (ctype : List Nat) (size : Nat) : List Nat :=
  str "HTTP/1.1 200 OK\r\n"
  ++ str "Content-Type: " ++ ctype ++ str "\r\n"
  ++ str "Content-Length: " ++ fmt_zu size ++ str "\r\n"
  ++ str "Connection: close\r\n"
  ++ str "\r\n"

/-- `void handle_req(char * request, int socket)`: the calls made, or `none`
when `to_path` runs out of the request block. -/
def handle_req (request : List Nat) (w : World) : Option (List Event) :=
  match to_path request with
  | .fault => none
  | .null =>
    some (send_simple_response w.sock (str "HTTP/1.1 400 Bad Request")
      (some (str "text/html; charset=utf-8")) (some (str "<h1>400 Bad Request</h1>\n"))).2
  | .ptr start mem =>
    match c_string mem start with
    | none => none
    | some path =>
      -- int fd = open(path, O_RDONLY);
      match w.fs path with
      | .error errno =>
        if errno = ENOENT then
          some (.sys_open path ::
            (send_simple_response w.sock (str "HTTP/1.1 404 Not Found")
              (some (str "text/html; charset=utf-8")) (some (str "<h1>404 Not Found</h1>\n"))).2)
        else
          some (.sys_open path ::
            (send_simple_response w.sock (str "HTTP/1.1 500 Internal Server Error")
              (some (str "text/html; charset=utf-8"))
              (some (str "<h1>500 Internal Server Error</h1>\n"))).2)
      | .fd f =>
        -- if (fstat(fd, &stats) == -1)
        match f.st_size with
        | none =>
          some (.sys_open path :: .sys_fstat :: .sys_close ::
            (send_simple_response w.sock (str "HTTP/1.1 500 Internal Server Error")
              (some (str "text/html; charset=utf-8"))
              (some (str "<h1>500 Internal Server Error</h1>\n"))).2)
        | some st_size =>
          let ctype := mime_from_path path
          -- (size_t)stats.st_size
          let text := ok_header ctype (st_size % 2 ^ 64)
          let header := snprintf_buf MAX_HEADER_SIZE text
          let hdr_len := snprintf_ret text
          if hdr_len < 0 ∨ hdr_len ≥ MAX_HEADER_SIZE then
            some (.sys_open path :: .sys_fstat :: .sys_close ::
              (send_simple_response w.sock (str "HTTP/1.1 500 Internal Server Error")
                (some (str "text/html; charset=utf-8"))
                (some (str "<h1>500 Internal Server Error</h1>\n"))).2)
          else
            -- if (write_all(socket, header, (size_t)hdr_len) == -1) { close(fd); return; }
            let wr := write_all w.sock (header.take hdr_len.toNat)
            if wr.1 = -1 then
              some (.sys_open path :: .sys_fstat :: (wr.2.2 ++ [.sys_close]))
            else
              some (.sys_open path :: .sys_fstat ::
                (wr.2.2 ++ stream_file f.close_ok f.reads wr.2.1))

/-! ## The MIME table as the specification words it -/

/-- The fixed table of the MIME resolver: extension, content type. -/
def spec_mime_table : List (List Nat × List Nat) :=
  [ (str "html", str "text/html; charset=utf-8"),
    (str "htm", str "text/html; charset=utf-8"),
    (str "css", str "text/css; charset=utf-8"),
    (str "js", str "application/javascript; charset=utf-8"),
    (str "json", str "application/json; charset=utf-8"),
    (str "txt", str "text/plain; charset=utf-8"),
    (str "svg", str "image/svg+xml"),
    (str "png", str "image/png"),
    (str "jpg", str "image/jpeg"),
    (str "jpeg", str "image/jpeg"),
    (str "gif", str "image/gif"),
    (str "ico", str "image/x-icon") ]

/-- The generic binary fallback type. -/
def spec_mime_fallback : List Nat := str "application/octet-stream"

/-- Exact, case-sensitive match of an extension in a table. -/
def spec_lookup (ext : List Nat) : List (List Nat × List Nat) → Option (List Nat)
  | [] => none
  | (k, v) :: t => if ext = k then some v else spec_lookup ext t

/-- The content type the specification gives an extension. -/
def spec_mime (ext : List Nat) : List Nat :=
  (spec_lookup ext spec_mime_table).getD spec_mime_fallback

/-! ## The wire format as the specification words it -/

/-- Status line and headers of a response: the status line, then
`Content-Type`, `Content-Length` and `Connection: close` in this order, each
ended by CR LF, then an empty line. -/
def spec_header (status_line content_type : List Nat) (len : Nat) : List Nat :=
  status_line ++ str "\r\n"
  ++ str "Content-Type: " ++ content_type ++ str "\r\n"
  ++ str "Content-Length: " ++ fmt_zu len ++ str "\r\n"
  ++ str "Connection: close\r\n"
  ++ str "\r\n"

/-- A response with a literal body. -/
def spec_response (status_line content_type body : List Nat) : List Nat :=
  spec_header status_line content_type body.length ++ body

/-- The bytes the `read` calls deliver before the end of the file (a `read`
that returns 0) or a failing `read`. -/
def delivered : List ReadResult → List Nat
  | [] => []
  | .fail :: _ => []
  | .data bytes :: reads => if bytes.length = 0 then [] else bytes ++ delivered reads

/-- A trace carries the one response `header ++ body` on a socket `sock`: the
first `write` call offers exactly `header`, whose first line is the status
line; the bytes put on the socket are the first bytes of `header ++ body`; and
they are all of `header ++ body` when no write of the socket fails. -/
def sends_one_response (evs : List Event) (sock : List WriteResult)
    (header body : List Nat) : Prop :=
  (offered evs).head? = some header
  ∧ transmitted evs <+: header ++ body
  ∧ ((∀ r ∈ sock, r ≠ WriteResult.fail) → transmitted evs = header ++ body)

/-- A file system in which `about.html` is a regular file holding `hello`;
opening a path below it fails with `ENOTDIR`, any other path is missing. -/
def about_fs (path : List Nat) : OpenResult :=
  if path = str "about.html" then
    .fd { st_size := some 5, reads := [.data (str "hello")], close_ok := true }
  else if path.take 11 = str "about.html/" then .error ENOTDIR
  else .error ENOENT

/-- A file holding `hello`, delivered by two `read` calls. -/
def hello_file : File :=
  { st_size := some 5, reads := [.data (str "hel"), .data (str "lo")], close_ok := true }

/-- A file system whose only files are `blog/index.html` and
`about.html/index.html`, both holding `hello`. -/
def hello_fs (path : List Nat) : OpenResult :=
  if path = str "blog/index.html" ∨ path = str "about.html/index.html" then .fd hello_file
  else .error ENOENT

/-! ## Properties of traces -/

/-- How often a trace calls `close`. -/
def closes : List Event → Nat
  | [] => 0
  | .sys_close :: es => closes es + 1
  | _ :: es => closes es

/-- Some `write` or `read` call of the trace returned a negative value. -/
def failed : List Event → Prop
  | [] => False
  | .sys_write _ ret :: es => ret < 0 ∨ failed es
  | .sys_read ret :: es => ret < 0 ∨ failed es
  | _ :: es => failed es

/-- No `write` call follows a failed `write` or `read` call of the trace. -/
def quiet : List Event → Prop
  | [] => True
  | .sys_write _ ret :: es => (ret < 0 → offered es = []) ∧ quiet es
  | .sys_read ret :: es => (ret < 0 → offered es = []) ∧ quiet es
  | _ :: es => quiet es

/-- A file whose second `read` fails. -/
def broken_file : File :=
  { st_size := some 5, reads := [.data (str "hel"), .fail], close_ok := false }

/-! ### Lemmas on `scan`, `cstr` and `to_path` -/

theorem str_index_html :
    str "index.html" = [105, 110, 100, 101, 120, 46, 104, 116, 109, 108] := by decide

theorem scan_token (tok rest : List Nat) (i : Nat)
    (h : ∀ c ∈ tok, c ≠ 32 ∧ c ≠ 0) :
    scan (tok ++ 32 :: rest) i = .found (i + tok.length) := by
  induction tok generalizing i with
  | nil => simp [scan]
  | cons c tok ih =>
    have hc := h c (List.mem_cons_self _ _)
    have ih' := ih (i + 1) (fun d hd => h d (List.mem_cons_of_mem _ hd))
    simp [scan, hc.1, hc.2, ih']
    omega

theorem scan_token_nul (tok rest : List Nat) (i : Nat)
    (h : ∀ c ∈ tok, c ≠ 32 ∧ c ≠ 0) :
    scan (tok ++ 0 :: rest) i = .nul := by
  induction tok generalizing i with
  | nil => simp [scan]
  | cons c tok ih =>
    have hc := h c (List.mem_cons_self _ _)
    have ih' := ih (i + 1) (fun d hd => h d (List.mem_cons_of_mem _ hd))
    simp [scan, hc.1, hc.2, ih']

theorem cstr_token (s rest : List Nat) (h : ∀ c ∈ s, c ≠ 0) :
    cstr (s ++ 0 :: rest) = some s := by
  induction s with
  | nil => simp [cstr]
  | cons c s ih =>
    have hc := h c (List.mem_cons_self _ _)
    have ih' := ih (fun d hd => h d (List.mem_cons_of_mem _ hd))
    simp [cstr, hc, ih']

theorem getElem?_before_second_space (M seg rest : List Nat) (x : Nat) :
    (M ++ 32 :: x :: (seg ++ 32 :: rest))[M.length + 2 + seg.length - 1]?
      = (x :: seg).getLast? := by
  have e : M.length + 2 + seg.length - 1 = M.length + (1 + seg.length) := by omega
  rw [e, List.getElem?_append_right (by omega), List.getLast?_eq_getElem?]
  have e2 : M.length + (1 + seg.length) - M.length = seg.length + 1 := by omega
  rw [e2, List.getElem?_cons_succ]
  have e3 : x :: (seg ++ 32 :: rest) = (x :: seg) ++ 32 :: rest := by simp
  rw [e3, List.getElem?_append_left (by simp)]
  simp

theorem set_second_space (M seg rest : List Nat) (x : Nat) :
    (M ++ 32 :: x :: (seg ++ 32 :: rest)).set (M.length + 2 + seg.length) 47
      = M ++ 32 :: x :: (seg ++ 47 :: rest) := by
  have e : M ++ 32 :: x :: (seg ++ 32 :: rest) = (M ++ 32 :: x :: seg) ++ 32 :: rest := by simp
  have e' : M ++ 32 :: x :: (seg ++ 47 :: rest) = (M ++ 32 :: x :: seg) ++ 47 :: rest := by simp
  have l : M.length + 2 + seg.length = (M ++ 32 :: x :: seg).length := by simp; omega
  rw [e, e', l, List.set_append_right _ _ (le_refl _)]
  simp

theorem memcpy_at (pre rest src : List Nat) :
    memcpy (pre ++ rest) pre.length src = pre ++ src ++ rest.drop src.length := by
  simp [memcpy, List.drop_append_eq_append_drop, List.take_append_eq_append_take]

/-- Memory split at the two separators: `M`, a space, one byte `x` (the byte
`start += 2` skips), the path `seg`, a space, and the rest of the block. -/
theorem to_path_shape (M seg rest : List Nat) (x c : Nat)
    (hM : ∀ c ∈ M, c ≠ 32 ∧ c ≠ 0) (hseg : ∀ c ∈ seg, c ≠ 32 ∧ c ≠ 0)
    (hc : (x :: seg).getLast? = some c) :
    to_path (M ++ 32 :: x :: (seg ++ 32 :: rest)) =
      if c ≠ 47 then
        if 11 ≤ rest.length then
          .ptr (M.length + 2) (M ++ 32 :: x :: (seg ++ 47 :: (DEFAULT_FILE ++ 0 :: rest.drop 11)))
        else .fault
      else
        if 10 ≤ rest.length then
          .ptr (M.length + 2) (M ++ 32 :: x :: (seg ++ (DEFAULT_FILE ++ 0 :: rest.drop 10)))
        else .fault := by
  have h1 : scan (M ++ 32 :: x :: (seg ++ 32 :: rest)) 0 = .found M.length := by
    simpa using scan_token M (x :: (seg ++ 32 :: rest)) 0 hM
  have h2 : (M ++ 32 :: x :: (seg ++ 32 :: rest)).drop (M.length + 2) = seg ++ 32 :: rest := by
    rw [List.drop_append_eq_append_drop]
    simp
  have h3 : scan (seg ++ 32 :: rest) (M.length + 2) = .found (M.length + 2 + seg.length) :=
    scan_token seg rest _ hseg
  have h4 := getElem?_before_second_space M seg rest x
  rw [hc] at h4
  have hlen : DEFAULT_FILE.length = 10 := by decide
  unfold to_path
  simp only [h1, h2, h3, h4]
  by_cases h47 : c = 47
  · simp only [h47, ne_eq, not_true_eq_false, if_false, hlen]
    by_cases hr : 10 ≤ rest.length
    · have e : M ++ 32 :: x :: (seg ++ 32 :: rest) = (M ++ 32 :: x :: seg) ++ 32 :: rest := by simp
      have l : M.length + 2 + seg.length = (M ++ 32 :: x :: seg).length := by simp; omega
      have hfit : M.length + 2 + seg.length + (10 + 1) ≤ (M ++ 32 :: x :: (seg ++ 32 :: rest)).length := by
        simp; omega
      rw [if_pos hfit, if_pos hr, e, l, memcpy_at _ _ _]
      simp [hlen]
    · have hfit : ¬ M.length + 2 + seg.length + (10 + 1) ≤ (M ++ 32 :: x :: (seg ++ 32 :: rest)).length := by
        simp; omega
      rw [if_neg hfit, if_neg hr]
  · simp only [h47, ne_eq, not_false_eq_true, if_true, hlen, set_second_space]
    by_cases hr : 11 ≤ rest.length
    · have e : M ++ 32 :: x :: (seg ++ 47 :: rest) = (M ++ 32 :: x :: (seg ++ [47])) ++ rest := by simp
      have l : M.length + 2 + seg.length + 1 = (M ++ 32 :: x :: (seg ++ [47])).length := by simp; omega
      have hfit : M.length + 2 + seg.length + 1 + (10 + 1) ≤ (M ++ 32 :: x :: (seg ++ 47 :: rest)).length := by
        simp; omega
      rw [if_pos hfit, if_pos hr, e, l, memcpy_at _ _ _]
      simp [hlen]
    · have hfit : ¬ M.length + 2 + seg.length + 1 + (10 + 1) ≤ (M ++ 32 :: x :: (seg ++ 47 :: rest)).length := by
        simp; omega
      rw [if_neg hfit, if_neg hr]

theorem no_nul_index_html (seg : List Nat) (hseg : ∀ c ∈ seg, c ≠ 32 ∧ c ≠ 0) :
    ∀ c ∈ seg ++ DEFAULT_FILE, c ≠ 0 := by
  intro c hc
  rcases List.mem_append.mp hc with h | h
  · exact (hseg c h).2
  · rw [DEFAULT_FILE, str_index_html] at h
    intro h0
    subst h0
    revert h
    decide

/-- The string returned when the path ends in a slash (or is empty behind the
slash of the root): the path followed by `index.html`. -/
theorem c_string_with_slash (M seg rest : List Nat) (x : Nat)
    (hseg : ∀ c ∈ seg, c ≠ 32 ∧ c ≠ 0) :
    c_string (M ++ 32 :: x :: (seg ++ (DEFAULT_FILE ++ 0 :: rest))) (M.length + 2)
      = some (seg ++ DEFAULT_FILE) := by
  have h2 : (M ++ 32 :: x :: (seg ++ (DEFAULT_FILE ++ 0 :: rest))).drop (M.length + 2)
      = (seg ++ DEFAULT_FILE) ++ 0 :: rest := by
    rw [List.drop_append_eq_append_drop]
    simp
  rw [c_string, h2]
  exact cstr_token _ _ (no_nul_index_html seg hseg)

/-! ### The claims on `to_path` -/

/-- A path that does not end in a slash gets one, then `index.html`. -/
theorem to_path_inserts_slash (M seg REST tail : List Nat)
    (hM : ∀ c ∈ M, c ≠ 32 ∧ c ≠ 0) (hseg : ∀ c ∈ seg, c ≠ 32 ∧ c ≠ 0)
    (hne : seg ≠ []) (hlast : seg.getLast? ≠ some 47) (hR : 10 ≤ REST.length) :
    ∃ mem, to_path (M ++ str " /" ++ seg ++ str " " ++ REST ++ 0 :: tail)
        = .ptr (M.length + 2) mem
      ∧ c_string mem (M.length + 2) = some (seg ++ str "/index.html") := by
  have hbuf : M ++ str " /" ++ seg ++ str " " ++ REST ++ 0 :: tail
      = M ++ 32 :: 47 :: (seg ++ 32 :: (REST ++ 0 :: tail)) := by
    simp [str]
  obtain ⟨c, hc⟩ : ∃ c, seg.getLast? = some c := by
    cases h : seg.getLast? with
    | none => exact absurd (List.getLast?_eq_none_iff.mp h) hne
    | some c => exact ⟨c, rfl⟩
  have hc47 : c ≠ 47 := fun h => hlast (by rw [hc, h])
  have hc' : (47 :: seg).getLast? = some c := by
    cases seg with
    | nil => exact absurd rfl hne
    | cons y ys => rw [List.getLast?_cons_cons]; exact hc
  have hlen : 11 ≤ (REST ++ 0 :: tail).length := by simp; omega
  refine ⟨M ++ 32 :: 47 :: (seg ++ 47 :: (DEFAULT_FILE ++ 0 :: (REST ++ 0 :: tail).drop 11)), ?_, ?_⟩
  · rw [hbuf, to_path_shape M seg _ 47 c hM hseg hc', if_pos hc47, if_pos hlen]
  · have hseg' : ∀ d ∈ seg ++ [47], d ≠ 32 ∧ d ≠ 0 := by
      intro d hd
      rcases List.mem_append.mp hd with h | h
      · exact hseg d h
      · simp at h; subst h; decide
    have e := c_string_with_slash M (seg ++ [47]) ((REST ++ 0 :: tail).drop 11) 47 hseg'
    have e1 : seg ++ [47] ++ (DEFAULT_FILE ++ 0 :: List.drop 11 (REST ++ 0 :: tail))
        = seg ++ 47 :: (DEFAULT_FILE ++ 0 :: List.drop 11 (REST ++ 0 :: tail)) := by simp
    have e2 : seg ++ str "/index.html" = seg ++ [47] ++ DEFAULT_FILE := by
      simp [DEFAULT_FILE, str]
    rw [e1] at e
    rw [e2]
    exact e

/-- C1: on a block `METHOD /<segment> REST` followed by the terminator, where
the method and the segment hold no space and no NUL, the segment is non-empty
and does not end in a slash, and REST has at least 10 bytes, `to_path` returns
a pointer to the string `<segment>/index.html`. -/
theorem to_path_without_slash (M seg REST tail : List Nat)
    (hM : ∀ c ∈ M, c ≠ 32 ∧ c ≠ 0) (hseg : ∀ c ∈ seg, c ≠ 32 ∧ c ≠ 0)
    (hne : seg ≠ []) (hlast : seg.getLast? ≠ some 47) (hR : 10 ≤ REST.length) :
    ∃ mem, to_path (M ++ str " /" ++ seg ++ str " " ++ REST ++ 0 :: tail)
        = .ptr (M.length + 2) mem
      ∧ c_string mem (M.length + 2) = some (seg ++ str "/index.html") :=
  to_path_inserts_slash M seg REST tail hM hseg hne hlast hR

/-- Witness of C1: the request of `test_to_path_without_slash`. -/
theorem to_path_without_slash_witness :
    ∃ mem, to_path (str "GET" ++ str " /" ++ str "blog" ++ str " "
          ++ str "HTTP/1.1\nHost: example.com" ++ 0 :: [])
        = .ptr ((str "GET").length + 2) mem
      ∧ c_string mem ((str "GET").length + 2) = some (str "blog" ++ str "/index.html") :=
  to_path_without_slash (str "GET") (str "blog") (str "HTTP/1.1\nHost: example.com") []
    (by decide) (by decide) (by decide) (by decide) (by decide)

/-- C2: on a block `METHOD /<segment>/ REST` followed by the terminator, where
the method and the segment hold no space and no NUL and REST has at least 10
bytes, `to_path` inserts no slash and returns a pointer to the string
`<segment>/index.html`. -/
theorem to_path_with_slash (M seg REST tail : List Nat)
    (hM : ∀ c ∈ M, c ≠ 32 ∧ c ≠ 0) (hseg : ∀ c ∈ seg, c ≠ 32 ∧ c ≠ 0)
    (hR : 10 ≤ REST.length) :
    ∃ mem, to_path (M ++ str " /" ++ seg ++ str "/ " ++ REST ++ 0 :: tail)
        = .ptr (M.length + 2) mem
      ∧ c_string mem (M.length + 2) = some (seg ++ str "/index.html") := by
  have hbuf : M ++ str " /" ++ seg ++ str "/ " ++ REST ++ 0 :: tail
      = M ++ 32 :: 47 :: ((seg ++ [47]) ++ 32 :: (REST ++ 0 :: tail)) := by
    simp [str]
  have hseg' : ∀ d ∈ seg ++ [47], d ≠ 32 ∧ d ≠ 0 := by
    intro d hd
    rcases List.mem_append.mp hd with h | h
    · exact hseg d h
    · simp at h; subst h; decide
  have hc' : (47 :: (seg ++ [47])).getLast? = some 47 := by
    have e : 47 :: (seg ++ [47]) = (47 :: seg) ++ [47] := by simp
    rw [e, List.getLast?_append]
    simp
  have hlen : 10 ≤ (REST ++ 0 :: tail).length := by simp; omega
  refine ⟨M ++ 32 :: 47 :: ((seg ++ [47]) ++ (DEFAULT_FILE ++ 0 :: (REST ++ 0 :: tail).drop 10)),
    ?_, ?_⟩
  · rw [hbuf, to_path_shape M (seg ++ [47]) _ 47 47 hM hseg' hc', if_neg (by simp), if_pos hlen]
  · have e2 : seg ++ str "/index.html" = seg ++ [47] ++ DEFAULT_FILE := by
      simp [DEFAULT_FILE, str]
    rw [e2]
    exact c_string_with_slash M (seg ++ [47]) _ 47 hseg'

/-- Witness of C2: the request of `test_to_path_with_slash`. -/
theorem to_path_with_slash_witness :
    ∃ mem, to_path (str "GET" ++ str " /" ++ str "blog" ++ str "/ "
          ++ str "HTTP/1.1\nHost: example.com" ++ 0 :: [])
        = .ptr ((str "GET").length + 2) mem
      ∧ c_string mem ((str "GET").length + 2) = some (str "blog" ++ str "/index.html") :=
  to_path_with_slash (str "GET") (str "blog") (str "HTTP/1.1\nHost: example.com") []
    (by decide) (by decide) (by decide)

/-- C3: on a block `M / REST` followed by the terminator, where the method `M`
holds no space and no NUL and REST has at least 10 bytes, `to_path` returns a
pointer to the string `index.html`, which has no leading slash. -/
theorem to_path_root (M REST tail : List Nat)
    (hM : ∀ c ∈ M, c ≠ 32 ∧ c ≠ 0) (hR : 10 ≤ REST.length) :
    ∃ mem, to_path (M ++ str " / " ++ REST ++ 0 :: tail) = .ptr (M.length + 2) mem
      ∧ c_string mem (M.length + 2) = some (str "index.html") := by
  have hbuf : M ++ str " / " ++ REST ++ 0 :: tail
      = M ++ 32 :: 47 :: ([] ++ 32 :: (REST ++ 0 :: tail)) := by
    simp [str]
  have hnil : ∀ d ∈ ([] : List Nat), d ≠ 32 ∧ d ≠ 0 := by simp
  have hlen : 10 ≤ (REST ++ 0 :: tail).length := by simp; omega
  refine ⟨M ++ 32 :: 47 :: ([] ++ (DEFAULT_FILE ++ 0 :: (REST ++ 0 :: tail).drop 10)), ?_, ?_⟩
  · rw [hbuf, to_path_shape M [] _ 47 47 hM hnil rfl, if_neg (by simp), if_pos hlen]
  · have e := c_string_with_slash M [] ((REST ++ 0 :: tail).drop 10) 47 hnil
    simpa [DEFAULT_FILE] using e

/-- Witness of C3: the request of `test_to_path_root`. -/
theorem to_path_root_witness :
    ∃ mem, to_path (str "GET" ++ str " / " ++ str "HTTP/1.1\nHost: example.com" ++ 0 :: [])
        = .ptr ((str "GET").length + 2) mem
      ∧ c_string mem ((str "GET").length + 2) = some (str "index.html") :=
  to_path_root (str "GET") (str "HTTP/1.1\nHost: example.com") []
    (by decide) (by decide)

/-- Without a space before the first NUL, `to_path` returns a null pointer. -/
theorem to_path_no_space (A tail : List Nat) (hA : ∀ c ∈ A, c ≠ 32 ∧ c ≠ 0) :
    to_path (A ++ 0 :: tail) = .null := by
  simp [to_path, scan_token_nul A tail 0 hA]

/-- With one space before the first NUL and at least one byte between the two,
`to_path` returns a null pointer. -/
theorem to_path_one_space (A B tail : List Nat) (x : Nat)
    (hA : ∀ c ∈ A, c ≠ 32 ∧ c ≠ 0) (hB : ∀ c ∈ B, c ≠ 32 ∧ c ≠ 0) :
    to_path (A ++ 32 :: x :: (B ++ 0 :: tail)) = .null := by
  have h1 : scan (A ++ 32 :: x :: (B ++ 0 :: tail)) 0 = .found A.length := by
    simpa using scan_token A (x :: (B ++ 0 :: tail)) 0 hA
  have h2 : (A ++ 32 :: x :: (B ++ 0 :: tail)).drop (A.length + 2) = B ++ 0 :: tail := by
    rw [List.drop_append_eq_append_drop]
    simp
  simp [to_path, h1, h2, scan_token_nul B tail _ hB]

/-- C4: the request `GET ` of `test_to_path_malformed` has one space, right
before the terminator.  `start += 2` steps over the terminator: on the five
byte block of the test `to_path` reads past the end of the block, and on a
block that holds further bytes behind the terminator it goes on parsing them
and returns the path `ab/index.html` instead of a null pointer. -/
theorem to_path_lone_space_not_null :
    to_path (str "GET " ++ [0]) = .fault
    ∧ to_path (str "GET " ++ 0 :: str "ab cdefghijklmnopqrst" ++ [0])
        = .ptr 5 (str "GET " ++ 0 :: str "ab/index.html" ++ 0 :: str "nopqrst" ++ [0])
    ∧ c_string (str "GET " ++ 0 :: str "ab/index.html" ++ 0 :: str "nopqrst" ++ [0]) 5
        = some (str "ab/index.html") := by
  decide


/-! ### `mime_from_path` -/

theorem strrchr_none (s : List Nat) (c : Nat) (h : c ∉ s) : strrchr s c = none := by
  induction s with
  | nil => rfl
  | cons x xs ih =>
    have hx : ¬ x = c := fun e => h (by simp [e])
    have hxs : c ∉ xs := fun e => h (List.mem_cons_of_mem _ e)
    simp [strrchr, ih hxs, hx]

theorem strrchr_last (pre ext : List Nat) (c : Nat) (h : c ∉ ext) :
    strrchr (pre ++ c :: ext) c = some (c :: ext) := by
  induction pre with
  | nil => simp [strrchr, strrchr_none ext c h]
  | cons x xs ih => simp [strrchr, ih]

theorem mime_of_ext (ext : List Nat) :
    (if ext = str "html" ∨ ext = str "htm" then str "text/html; charset=utf-8"
      else if ext = str "css" then str "text/css; charset=utf-8"
      else if ext = str "js" then str "application/javascript; charset=utf-8"
      else if ext = str "json" then str "application/json; charset=utf-8"
      else if ext = str "txt" then str "text/plain; charset=utf-8"
      else if ext = str "svg" then str "image/svg+xml"
      else if ext = str "png" then str "image/png"
      else if ext = str "jpg" ∨ ext = str "jpeg" then str "image/jpeg"
      else if ext = str "gif" then str "image/gif"
      else if ext = str "ico" then str "image/x-icon"
      else str "application/octet-stream") = spec_mime ext := by
  by_cases h0 : ext = str "html"
  · subst h0; decide
  by_cases h1 : ext = str "htm"
  · subst h1; decide
  by_cases h2 : ext = str "css"
  · subst h2; decide
  by_cases h3 : ext = str "js"
  · subst h3; decide
  by_cases h4 : ext = str "json"
  · subst h4; decide
  by_cases h5 : ext = str "txt"
  · subst h5; decide
  by_cases h6 : ext = str "svg"
  · subst h6; decide
  by_cases h7 : ext = str "png"
  · subst h7; decide
  by_cases h8 : ext = str "jpg"
  · subst h8; decide
  by_cases h9 : ext = str "jpeg"
  · subst h9; decide
  by_cases h10 : ext = str "gif"
  · subst h10; decide
  by_cases h11 : ext = str "ico"
  · subst h11; decide
  simp only [spec_mime, spec_mime_table, spec_lookup, spec_mime_fallback, h0, h1, h2, h3, h4, h5, h6, h7, h8, h9, h10, h11,
    or_self, if_false, Option.getD_none]

/-- C5: `mime_from_path` returns the table entry of the substring after the
last `.` of the path when that substring is, byte for byte, one of the twelve
extensions of the table, and `application/octet-stream` otherwise, also when
the path has no `.`. -/
theorem mime_from_path_table (path : List Nat) :
    (∀ pre ext, path = pre ++ 46 :: ext → 46 ∉ ext →
        mime_from_path path = spec_mime ext)
    ∧ (46 ∉ path → mime_from_path path = spec_mime_fallback)
    ∧ (∀ ext, ext ∉ spec_mime_table.map Prod.fst → spec_mime ext = spec_mime_fallback) := by
  refine ⟨?_, ?_, ?_⟩
  · intro pre ext hp hd
    subst hp
    simp only [mime_from_path, strrchr_last pre ext 46 hd, List.drop_one, List.tail_cons]
    exact mime_of_ext ext
  · intro hd
    simp only [mime_from_path, strrchr_none path 46 hd, spec_mime_fallback]
  · intro ext h
    simp only [spec_mime_table, List.map, List.mem_cons, not_or] at h
    simp [spec_mime, spec_mime_table, spec_lookup, h]

/-- Witness of C5: `style.css` has the CSS type, `app.JS` and `README` the
fallback. -/
theorem mime_from_path_table_witness :
    mime_from_path (str "style.css") = str "text/css; charset=utf-8"
    ∧ mime_from_path (str "app.JS") = str "application/octet-stream"
    ∧ mime_from_path (str "README") = str "application/octet-stream" :=
  ⟨(mime_from_path_table (str "style.css")).1 (str "style") (str "css") (by decide) (by decide),
   (mime_from_path_table (str "app.JS")).1 (str "app") (str "JS") (by decide) (by decide),
   (mime_from_path_table (str "README")).2.1 (by decide)⟩

/-! ### `write_all` -/

theorem transmitted_append (a b : List Event) :
    transmitted (a ++ b) = transmitted a ++ transmitted b := by
  induction a with
  | nil => rfl
  | cons e es ih => simp [transmitted, ih]

theorem sys_write_bounds (r : WriteResult) (len : Nat) :
    sys_write r len = -1 ∨ ∃ n : Nat, n ≤ len ∧ sys_write r len = n := by
  cases r with
  | fail => left; rfl
  | accept cap => right; exact ⟨min cap len, Nat.min_le_right _ _, by simp [sys_write]⟩

/-- `write_all` returns 0 or -1. -/
theorem write_all_ret (sock : List WriteResult) (buf : List Nat) :
    (write_all sock buf).1 = 0 ∨ (write_all sock buf).1 = -1 := by
  induction sock generalizing buf with
  | nil => unfold write_all; split <;> simp
  | cons r sock ih =>
    unfold write_all
    by_cases h0 : buf.length = 0
    · simp [h0]
    · by_cases hn : sys_write r buf.length < 0
      · simp [h0, hn]
      · simp only [h0, hn, if_false]
        exact ih _

/-- The bytes `write_all` puts on the socket are the first bytes of the
buffer, in order. -/
theorem write_all_transmitted (sock : List WriteResult) (buf : List Nat) :
    transmitted (write_all sock buf).2.2 <+: buf := by
  induction sock generalizing buf with
  | nil =>
    unfold write_all
    split
    · simp [transmitted]
    · simp [transmitted, Event.sent]
  | cons r sock ih =>
    unfold write_all
    by_cases h0 : buf.length = 0
    · simp [h0, transmitted]
    · rcases sys_write_bounds r buf.length with hn | ⟨n, hle, hn⟩
      · simp [h0, hn, transmitted, Event.sent]
      · have hnn : ¬ ((n : Int) < 0) := by omega
        simp only [h0, hn, hnn, if_false, transmitted, Event.sent, Int.toNat_ofNat]
        obtain ⟨t, ht⟩ := ih (buf.drop n)
        refine ⟨t, ?_⟩
        rw [List.append_assoc, ht, List.take_append_drop]

/-- When `write_all` returns 0 the whole buffer is on the socket. -/
theorem write_all_ok (sock : List WriteResult) (buf : List Nat)
    (h : (write_all sock buf).1 = 0) : transmitted (write_all sock buf).2.2 = buf := by
  induction sock generalizing buf with
  | nil =>
    unfold write_all
    split
    · rename_i h0
      simp [transmitted, List.length_eq_zero.mp h0]
    · simp [transmitted, Event.sent]
  | cons r sock ih =>
    unfold write_all at h ⊢
    by_cases h0 : buf.length = 0
    · simp [h0, transmitted, List.length_eq_zero.mp h0]
    · rcases sys_write_bounds r buf.length with hn | ⟨n, hle, hn⟩
      · simp [h0, hn] at h
      · have hnn : ¬ ((n : Int) < 0) := by omega
        simp only [h0, hn, hnn, if_false, transmitted, Event.sent, Int.toNat_ofNat] at h ⊢
        rw [ih _ h, List.take_append_drop]

/-- On a socket none of whose writes fails, `write_all` returns 0 and leaves
such a socket. -/
theorem write_all_no_fail (sock : List WriteResult) (buf : List Nat)
    (h : ∀ r ∈ sock, r ≠ WriteResult.fail) :
    (write_all sock buf).1 = 0 ∧ ∀ r ∈ (write_all sock buf).2.1, r ≠ WriteResult.fail := by
  induction sock generalizing buf with
  | nil => unfold write_all; split <;> simp
  | cons r sock ih =>
    have hr := h r (List.mem_cons_self _ _)
    have hs : ∀ x ∈ sock, x ≠ WriteResult.fail := fun x hx => h x (List.mem_cons_of_mem _ hx)
    unfold write_all
    by_cases h0 : buf.length = 0
    · simp only [h0, if_true]
      exact ⟨trivial, h⟩
    · rcases sys_write_bounds r buf.length with hn | ⟨n, hle, hn⟩
      · cases r with
        | fail => exact absurd rfl hr
        | accept cap => simp [sys_write] at hn; omega
      · have hnn : ¬ ((n : Int) < 0) := by omega
        simp only [h0, hn, hnn, if_false]
        exact ih _ hs

/-- The first `write` call of `write_all` offers the whole buffer. -/
theorem write_all_offered (sock : List WriteResult) (buf : List Nat) (h : buf ≠ []) :
    (offered (write_all sock buf).2.2).head? = some buf := by
  have h0 : buf.length ≠ 0 := fun e => h (List.length_eq_zero.mp e)
  cases sock with
  | nil => unfold write_all; simp [h0, offered]
  | cons r sock =>
    unfold write_all
    by_cases hn : sys_write r buf.length < 0
    · simp [h0, hn, offered]
    · simp [h0, hn, offered]

/-! ### `send_simple_response` -/

theorem offered_append (a b : List Event) : offered (a ++ b) = offered a ++ offered b := by
  induction a with
  | nil => rfl
  | cons e es ih => cases e <;> simp [offered, ih]

theorem simple_header_eq (status ct : List Nat) (len : Nat) :
    simple_header status ct len = spec_header status ct len := rfl

theorem spec_header_ne_nil (status ct : List Nat) (len : Nat) :
    spec_header status ct len ≠ [] := by
  intro h
  have := congrArg List.length h
  simp [spec_header, str] at this

/-- A text shorter than the header buffer is rendered in full and passes the
length check. -/
theorem snprintf_fits (text : List Nat) (h : text.length < 256) :
    ¬ (snprintf_ret text < 0 ∨ snprintf_ret text ≥ (MAX_HEADER_SIZE : Nat))
    ∧ (snprintf_buf MAX_HEADER_SIZE text).take (snprintf_ret text).toNat = text := by
  have hret : snprintf_ret text = (text.length : Int) := by
    unfold snprintf_ret
    rw [if_pos (by omega)]
  constructor
  · rw [hret]
    simp only [MAX_HEADER_SIZE]
    omega
  · rw [hret, Int.toNat_ofNat, snprintf_buf, List.take_take, List.take_of_length_le]
    simp only [MAX_HEADER_SIZE]
    omega

/-- A text that does not fit the header buffer fails the length check. -/
theorem snprintf_overflow (text : List Nat) (h : 256 ≤ text.length) :
    snprintf_ret text < 0 ∨ snprintf_ret text ≥ (MAX_HEADER_SIZE : Nat) := by
  unfold snprintf_ret
  by_cases h2 : text.length ≤ 2147483647
  · rw [if_pos h2]
    right
    simp only [MAX_HEADER_SIZE]
    omega
  · rw [if_neg h2]
    left
    decide

/-- What `send_simple_response` does when the header fits its buffer: the
header goes through `write_all`, then the body if the header went through and
the body is not empty. -/
theorem send_simple_response_fits (sock : List WriteResult) (status : List Nat)
    (ct body : Option (List Nat))
    (hfit : (spec_header status (ct.getD (str "text/plain; charset=utf-8"))
      (body.getD []).length).length < 256) :
    send_simple_response sock status ct body =
      if (write_all sock (spec_header status (ct.getD (str "text/plain; charset=utf-8"))
          (body.getD []).length)).1 = -1 then
        ((write_all sock (spec_header status (ct.getD (str "text/plain; charset=utf-8"))
          (body.getD []).length)).2.1,
         (write_all sock (spec_header status (ct.getD (str "text/plain; charset=utf-8"))
          (body.getD []).length)).2.2)
      else if (body.getD []).length ≠ 0 then
        ((write_all (write_all sock (spec_header status
            (ct.getD (str "text/plain; charset=utf-8")) (body.getD []).length)).2.1
            (body.getD [])).2.1,
         (write_all sock (spec_header status (ct.getD (str "text/plain; charset=utf-8"))
          (body.getD []).length)).2.2 ++
         (write_all (write_all sock (spec_header status
            (ct.getD (str "text/plain; charset=utf-8")) (body.getD []).length)).2.1
            (body.getD [])).2.2)
      else
        ((write_all sock (spec_header status (ct.getD (str "text/plain; charset=utf-8"))
          (body.getD []).length)).2.1,
         (write_all sock (spec_header status (ct.getD (str "text/plain; charset=utf-8"))
          (body.getD []).length)).2.2) := by
  have key := snprintf_fits _ hfit
  cases body <;> cases ct <;>
    simp only [Option.getD_some, Option.getD_none, List.length_nil] at key ⊢ <;>
    simp only [send_simple_response, simple_header_eq, if_neg key.1, key.2, List.take_length,
      Option.getD_some, Option.getD_none, List.length_nil, List.take_nil]

/-- The bytes `send_simple_response` puts on the socket are the first bytes of
the one response it was asked to send. -/
theorem send_simple_response_transmitted (sock : List WriteResult) (status : List Nat)
    (ct body : Option (List Nat)) :
    transmitted (send_simple_response sock status ct body).2
      <+: spec_response status (ct.getD (str "text/plain; charset=utf-8")) (body.getD []) := by
  by_cases hfit : (spec_header status (ct.getD (str "text/plain; charset=utf-8"))
      (body.getD []).length).length < 256
  · rw [send_simple_response_fits sock status ct body hfit, spec_response]
    have hp := write_all_transmitted sock (spec_header status
      (ct.getD (str "text/plain; charset=utf-8")) (body.getD []).length)
    by_cases h1 : (write_all sock (spec_header status
        (ct.getD (str "text/plain; charset=utf-8")) (body.getD []).length)).1 = -1
    · rw [if_pos h1]
      exact hp.trans (List.prefix_append _ _)
    · rw [if_neg h1]
      have h0 : (write_all sock (spec_header status
          (ct.getD (str "text/plain; charset=utf-8")) (body.getD []).length)).1 = 0 := by
        rcases write_all_ret sock (spec_header status
          (ct.getD (str "text/plain; charset=utf-8")) (body.getD []).length) with h | h
        · exact h
        · exact absurd h h1
      have hall := write_all_ok _ _ h0
      by_cases hb : (body.getD []).length ≠ 0
      · rw [if_pos hb]
        simp only [transmitted_append, hall]
        exact (List.prefix_append_right_inj _).mpr (write_all_transmitted _ _)
      · rw [if_neg hb]
        simp only [hall]
        exact List.prefix_append _ _
  · have hov := snprintf_overflow _ (Nat.le_of_not_lt hfit)
    have : send_simple_response sock status ct body = (sock, []) := by
      cases body <;> cases ct <;>
        simp only [Option.getD_some, Option.getD_none, List.length_nil] at hov <;>
        simp only [send_simple_response, simple_header_eq, if_pos hov]
    rw [this]
    exact List.nil_prefix

/-- When the header fits its buffer, the first `write` call of
`send_simple_response` offers the whole header. -/
theorem send_simple_response_offered (sock : List WriteResult) (status : List Nat)
    (ct body : Option (List Nat))
    (hfit : (spec_header status (ct.getD (str "text/plain; charset=utf-8"))
      (body.getD []).length).length < 256) :
    (offered (send_simple_response sock status ct body).2).head?
      = some (spec_header status (ct.getD (str "text/plain; charset=utf-8"))
          (body.getD []).length) := by
  rw [send_simple_response_fits sock status ct body hfit]
  have ho := write_all_offered sock _ (spec_header_ne_nil status
    (ct.getD (str "text/plain; charset=utf-8")) (body.getD []).length)
  split_ifs
  · exact ho
  · simp only [offered_append]
    rw [List.head?_append_of_ne_nil]
    · exact ho
    · intro hnil
      rw [hnil] at ho
      simp at ho
  · exact ho

/-- When the header fits its buffer and no write fails,
`send_simple_response` puts the whole response on the socket. -/
theorem send_simple_response_no_fail (sock : List WriteResult) (status : List Nat)
    (ct body : Option (List Nat))
    (hfit : (spec_header status (ct.getD (str "text/plain; charset=utf-8"))
      (body.getD []).length).length < 256)
    (hs : ∀ r ∈ sock, r ≠ WriteResult.fail) :
    transmitted (send_simple_response sock status ct body).2
      = spec_response status (ct.getD (str "text/plain; charset=utf-8")) (body.getD []) := by
  rw [send_simple_response_fits sock status ct body hfit, spec_response]
  obtain ⟨h0, hs'⟩ := write_all_no_fail sock (spec_header status
    (ct.getD (str "text/plain; charset=utf-8")) (body.getD []).length) hs
  have h1 : ¬ (write_all sock (spec_header status
      (ct.getD (str "text/plain; charset=utf-8")) (body.getD []).length)).1 = -1 := by
    rw [h0]; decide
  have hall := write_all_ok _ _ h0
  rw [if_neg h1]
  by_cases hb : (body.getD []).length ≠ 0
  · rw [if_pos hb]
    simp only [transmitted_append, hall]
    rw [write_all_ok _ _ (write_all_no_fail _ _ hs').1]
  · rw [if_neg hb]
    have hnil : body.getD [] = [] := List.length_eq_zero.mp (not_not.mp hb)
    rw [hall]
    nth_rewrite 3 [hnil]
    rw [List.append_nil]

/-! ### `handle_req` -/

theorem transmitted_close (close_ok : Bool) :
    transmitted (if close_ok = true then [] else [Event.perror]) = [] := by
  cases close_ok <;> rfl

/-- The bytes the streaming loop puts on the socket are the first bytes the
file delivers, in order. -/
theorem stream_file_transmitted (close_ok : Bool) (reads : List ReadResult)
    (sock : List WriteResult) :
    transmitted (stream_file close_ok reads sock) <+: delivered reads := by
  induction reads generalizing sock with
  | nil => simp [stream_file, transmitted, Event.sent, transmitted_close]
  | cons r reads ih =>
    cases r with
    | fail => simp [stream_file, transmitted, Event.sent, transmitted_close]
    | data bytes =>
      by_cases h0 : bytes.length = 0
      · simp [stream_file, h0, transmitted, Event.sent, transmitted_close]
      · simp only [stream_file, delivered, h0, if_false]
        by_cases h1 : (write_all sock bytes).1 = -1
        · simp only [h1, if_true, transmitted, Event.sent, List.nil_append, transmitted_append,
            List.append_nil]
          exact (write_all_transmitted sock bytes).trans (List.prefix_append _ _)
        · have hz : (write_all sock bytes).1 = 0 := by
            rcases write_all_ret sock bytes with h | h
            · exact h
            · exact absurd h h1
          simp only [h1, if_false, transmitted, Event.sent, List.nil_append, transmitted_append,
            write_all_ok _ _ hz]
          exact (List.prefix_append_right_inj _).mpr (ih _)

/-- When no write fails, the streaming loop puts on the socket all the bytes
the file delivers. -/
theorem stream_file_no_fail (close_ok : Bool) (reads : List ReadResult)
    (sock : List WriteResult) (hs : ∀ r ∈ sock, r ≠ WriteResult.fail) :
    transmitted (stream_file close_ok reads sock) = delivered reads := by
  induction reads generalizing sock with
  | nil => simp [stream_file, transmitted, Event.sent, transmitted_close, delivered]
  | cons r reads ih =>
    cases r with
    | fail => simp [stream_file, transmitted, Event.sent, transmitted_close, delivered]
    | data bytes =>
      by_cases h0 : bytes.length = 0
      · simp [stream_file, h0, transmitted, Event.sent, transmitted_close, delivered]
      · obtain ⟨hz, hs'⟩ := write_all_no_fail sock bytes hs
        have h1 : ¬ (write_all sock bytes).1 = -1 := by rw [hz]; decide
        simp only [stream_file, delivered, h0, h1, if_false, transmitted, Event.sent,
          List.nil_append, transmitted_append, write_all_ok _ _ hz, ih _ hs']

/-- Chunks that are not empty, followed by the end of the file, are all
delivered. -/
theorem delivered_chunks (chunks : List (List Nat)) (rest : List ReadResult)
    (hc : ∀ c ∈ chunks, c ≠ [])
    (hr : rest.head? = none ∨ rest.head? = some (ReadResult.data [])) :
    delivered (chunks.map ReadResult.data ++ rest) = chunks.flatten := by
  induction chunks with
  | nil =>
    cases rest with
    | nil => rfl
    | cons r rest =>
      rcases hr with h | h
      · simp at h
      · simp at h
        subst h
        simp [delivered]
  | cons c chunks ih =>
    have h0 : c.length ≠ 0 := fun e =>
      hc c (List.mem_cons_self _ _) (List.length_eq_zero.mp e)
    simp [delivered, h0, ih (fun d hd => hc d (List.mem_cons_of_mem _ hd))]

theorem ok_header_eq (ct : List Nat) (n : Nat) :
    ok_header ct n = spec_header (str "HTTP/1.1 200 OK") ct n := by
  have h : str "HTTP/1.1 200 OK\r\n" = str "HTTP/1.1 200 OK" ++ str "\r\n" := by decide
  simp only [ok_header, spec_header, h]

theorem mime_from_path_eq (path : List Nat) :
    mime_from_path path = match strrchr path 46 with
      | none => spec_mime_fallback
      | some dot => spec_mime (dot.drop 1) := by
  unfold mime_from_path
  split
  · rfl
  · exact mime_of_ext _

theorem spec_mime_length (ext : List Nat) : (spec_mime ext).length ≤ 37 := by
  by_cases h0 : ext = str "html"
  · subst h0; decide
  by_cases h1 : ext = str "htm"
  · subst h1; decide
  by_cases h2 : ext = str "css"
  · subst h2; decide
  by_cases h3 : ext = str "js"
  · subst h3; decide
  by_cases h4 : ext = str "json"
  · subst h4; decide
  by_cases h5 : ext = str "txt"
  · subst h5; decide
  by_cases h6 : ext = str "svg"
  · subst h6; decide
  by_cases h7 : ext = str "png"
  · subst h7; decide
  by_cases h8 : ext = str "jpg"
  · subst h8; decide
  by_cases h9 : ext = str "jpeg"
  · subst h9; decide
  by_cases h10 : ext = str "gif"
  · subst h10; decide
  by_cases h11 : ext = str "ico"
  · subst h11; decide
  simp only [spec_mime, spec_mime_table, spec_lookup, spec_mime_fallback, h0, h1, h2, h3, h4, h5, h6, h7, h8, h9, h10, h11,
    if_false, Option.getD_none]
  decide

theorem mime_from_path_length (path : List Nat) : (mime_from_path path).length ≤ 37 := by
  rw [mime_from_path_eq]
  split
  · decide
  · exact spec_mime_length _

theorem fmt_zu_length (n : Nat) (h : n < 2 ^ 64) : (fmt_zu n).length ≤ 20 := by
  have h' : n < 10 ^ 20 := lt_of_lt_of_le h (by norm_num)
  have hl := Nat.repr_length n 20 (by decide) h'
  unfold fmt_zu str
  rw [List.length_map]
  exact hl

/-- The header of the success path always fits the header buffer. -/
theorem ok_header_fits (path : List Nat) (size : Nat) :
    (spec_header (str "HTTP/1.1 200 OK") (mime_from_path path) (size % 2 ^ 64)).length < 256 := by
  have h1 := mime_from_path_length path
  have h2 := fmt_zu_length (size % 2 ^ 64) (Nat.mod_lt _ (by norm_num))
  have a1 : (str "HTTP/1.1 200 OK").length = 15 := by decide
  have a2 : (str "\r\n").length = 2 := by decide
  have a3 : (str "Content-Type: ").length = 14 := by decide
  have a4 : (str "Content-Length: ").length = 16 := by decide
  have a5 : (str "Connection: close\r\n").length = 19 := by decide
  simp only [spec_header, List.length_append, a1, a2, a3, a4, a5]
  omega


theorem error_pages_fit :
    (spec_header (str "HTTP/1.1 400 Bad Request") (str "text/html; charset=utf-8")
        (str "<h1>400 Bad Request</h1>\n").length).length < 256
    ∧ (spec_header (str "HTTP/1.1 404 Not Found") (str "text/html; charset=utf-8")
        (str "<h1>404 Not Found</h1>\n").length).length < 256
    ∧ (spec_header (str "HTTP/1.1 500 Internal Server Error") (str "text/html; charset=utf-8")
        (str "<h1>500 Internal Server Error</h1>\n").length).length < 256 := by
  have a2 : (str "\r\n").length = 2 := by decide
  have a3 : (str "Content-Type: ").length = 14 := by decide
  have a4 : (str "Content-Length: ").length = 16 := by decide
  have a5 : (str "Connection: close\r\n").length = 19 := by decide
  have a6 : (str "text/html; charset=utf-8").length = 24 := by decide
  have b1 : (str "HTTP/1.1 400 Bad Request").length = 24 := by decide
  have b2 : (str "HTTP/1.1 404 Not Found").length = 22 := by decide
  have b3 : (str "HTTP/1.1 500 Internal Server Error").length = 34 := by decide
  have c1 : (fmt_zu (str "<h1>400 Bad Request</h1>\n").length).length = 2 := by decide
  have c2 : (fmt_zu (str "<h1>404 Not Found</h1>\n").length).length = 2 := by decide
  have c3 : (fmt_zu (str "<h1>500 Internal Server Error</h1>\n").length).length = 2 := by
    decide
  simp only [spec_header, List.length_append, a2, a3, a4, a5, a6, b1, b2, b3, c1, c2, c3]
  decide

/-- A literal response whose header fits the buffer is carried as one
response, whatever calls other than `write` come before it. -/
theorem sends_simple (pre : List Event) (sock : List WriteResult) (status ct body : List Nat)
    (hpre : offered pre = [] ∧ transmitted pre = [])
    (hfit : (spec_header status ct body.length).length < 256) :
    sends_one_response (pre ++ (send_simple_response sock status (some ct) (some body)).2) sock
      (spec_header status ct body.length) body := by
  have hfit' : (spec_header status ((some ct).getD (str "text/plain; charset=utf-8"))
      ((some body).getD []).length).length < 256 := hfit
  refine ⟨?_, ?_, ?_⟩
  · rw [offered_append, hpre.1, List.nil_append]
    exact send_simple_response_offered sock status (some ct) (some body) hfit'
  · rw [transmitted_append, hpre.2, List.nil_append]
    exact send_simple_response_transmitted sock status (some ct) (some body)
  · intro hs
    rw [transmitted_append, hpre.2, List.nil_append]
    exact send_simple_response_no_fail sock status (some ct) (some body) hfit' hs

/-- The success path of `handle_req`: `open`, `fstat`, the header through
`write_all`, then `close` if that failed and the streaming loop otherwise. -/
theorem handle_req_ok (request : List Nat) (w : World) (start : Nat) (mem path : List Nat)
    (f : File) (size : Nat)
    (hp : to_path request = .ptr start mem) (hs : c_string mem start = some path)
    (hf : w.fs path = .fd f) (hz : f.st_size = some size) :
    handle_req request w = some (.sys_open path :: .sys_fstat ::
      ((write_all w.sock (spec_header (str "HTTP/1.1 200 OK") (mime_from_path path)
          (size % 2 ^ 64))).2.2 ++
        if (write_all w.sock (spec_header (str "HTTP/1.1 200 OK") (mime_from_path path)
          (size % 2 ^ 64))).1 = -1 then [.sys_close]
        else stream_file f.close_ok f.reads
          (write_all w.sock (spec_header (str "HTTP/1.1 200 OK") (mime_from_path path)
            (size % 2 ^ 64))).2.1)) := by
  have key := snprintf_fits _ (ok_header_fits path size)
  simp only [handle_req, hp, hs, hf, hz, ok_header_eq, if_neg key.1, key.2]
  split_ifs <;> rfl

/-- The success path carries one response: the 200 header, then the bytes the
file delivers. -/
theorem sends_ok (request : List Nat) (w : World) (start : Nat) (mem path : List Nat)
    (f : File) (size : Nat)
    (hp : to_path request = .ptr start mem) (hs : c_string mem start = some path)
    (hf : w.fs path = .fd f) (hz : f.st_size = some size) :
    ∃ evs, handle_req request w = some evs ∧
      sends_one_response evs w.sock
        (spec_header (str "HTTP/1.1 200 OK") (mime_from_path path) (size % 2 ^ 64))
        (delivered f.reads) := by
  refine ⟨_, handle_req_ok request w start mem path f size hp hs hf hz, ?_, ?_, ?_⟩
  · simp only [offered, offered_append]
    rw [List.head?_append_of_ne_nil]
    · exact write_all_offered _ _ (spec_header_ne_nil _ _ _)
    · intro hnil
      have ho := write_all_offered w.sock _ (spec_header_ne_nil (str "HTTP/1.1 200 OK")
        (mime_from_path path) (size % 2 ^ 64))
      rw [hnil] at ho
      simp at ho
  · simp only [transmitted, Event.sent, List.nil_append, transmitted_append]
    by_cases h1 : (write_all w.sock (spec_header (str "HTTP/1.1 200 OK") (mime_from_path path)
        (size % 2 ^ 64))).1 = -1
    · simp only [h1, if_true, transmitted, Event.sent, List.append_nil]
      exact (write_all_transmitted _ _).trans (List.prefix_append _ _)
    · have h0 : (write_all w.sock (spec_header (str "HTTP/1.1 200 OK") (mime_from_path path)
          (size % 2 ^ 64))).1 = 0 := by
        rcases write_all_ret w.sock (spec_header (str "HTTP/1.1 200 OK") (mime_from_path path)
          (size % 2 ^ 64)) with h | h
        · exact h
        · exact absurd h h1
      simp only [h1, if_false, write_all_ok _ _ h0]
      exact (List.prefix_append_right_inj _).mpr (stream_file_transmitted _ _ _)
  · intro hsock
    obtain ⟨h0, hs'⟩ := write_all_no_fail w.sock (spec_header (str "HTTP/1.1 200 OK")
      (mime_from_path path) (size % 2 ^ 64)) hsock
    have h1 : ¬ (write_all w.sock (spec_header (str "HTTP/1.1 200 OK") (mime_from_path path)
        (size % 2 ^ 64))).1 = -1 := by rw [h0]; decide
    simp only [transmitted, Event.sent, List.nil_append, transmitted_append, h1, if_false,
      write_all_ok _ _ h0, stream_file_no_fail _ _ _ hs']


/-- The header, written out as one text. -/
theorem spec_header_text (status ct : List Nat) (n : Nat) :
    spec_header status ct n = status ++ str "\r\nContent-Type: " ++ ct
      ++ str "\r\nContent-Length: " ++ fmt_zu n ++ str "\r\nConnection: close\r\n\r\n" := by
  have h1 : str "\r\nContent-Type: " = str "\r\n" ++ str "Content-Type: " := by decide
  have h2 : str "\r\nContent-Length: " = str "\r\n" ++ str "Content-Length: " := by decide
  have h3 : str "\r\nConnection: close\r\n\r\n"
      = str "\r\n" ++ (str "Connection: close\r\n" ++ str "\r\n") := by decide
  simp only [spec_header, h1, h2, h3, List.append_assoc]

/-- The calls of `write_all` are `write` calls. -/
theorem write_all_events (sock : List WriteResult) (buf : List Nat) :
    ∀ e ∈ (write_all sock buf).2.2, ∃ b n, e = Event.sys_write b n := by
  induction sock generalizing buf with
  | nil =>
    unfold write_all
    split <;> simp
  | cons r sock ih =>
    unfold write_all
    by_cases h0 : buf.length = 0
    · simp [h0]
    · by_cases hn : sys_write r buf.length < 0
      · simp [h0, hn]
      · simp only [h0, hn, if_false, List.mem_cons]
        rintro e (rfl | he)
        · exact ⟨_, _, rfl⟩
        · exact ih _ e he

/-- When the header does not fit its buffer `send_simple_response` makes no
call at all. -/
theorem send_simple_response_overflow (sock : List WriteResult) (status : List Nat)
    (ct body : Option (List Nat))
    (hov : 256 ≤ (spec_header status (ct.getD (str "text/plain; charset=utf-8"))
      (body.getD []).length).length) :
    send_simple_response sock status ct body = (sock, []) := by
  have hov := snprintf_overflow _ hov
  cases body <;> cases ct <;>
    simp only [Option.getD_some, Option.getD_none, List.length_nil] at hov <;>
    simp only [send_simple_response, simple_header_eq, if_pos hov]

/-- The calls of `send_simple_response` are `write` calls. -/
theorem send_simple_response_events (sock : List WriteResult) (status : List Nat)
    (ct body : Option (List Nat)) :
    ∀ e ∈ (send_simple_response sock status ct body).2, ∃ b n, e = Event.sys_write b n := by
  by_cases hfit : (spec_header status (ct.getD (str "text/plain; charset=utf-8"))
      (body.getD []).length).length < 256
  · rw [send_simple_response_fits sock status ct body hfit]
    split_ifs
    · exact write_all_events _ _
    · intro e he
      rcases List.mem_append.mp he with h | h
      · exact write_all_events _ _ e h
      · exact write_all_events _ _ e h
    · exact write_all_events _ _
  · rw [send_simple_response_overflow sock status ct body (Nat.le_of_not_lt hfit)]
    simp

/-- The success path when no write fails and the file is read to its end
without error: the 200 header, then all chunks read. -/
theorem handle_req_serves (request : List Nat) (w : World) (start : Nat) (mem path : List Nat)
    (f : File) (size : Nat) (chunks : List (List Nat)) (rest : List ReadResult)
    (hp : to_path request = .ptr start mem) (hs : c_string mem start = some path)
    (hf : w.fs path = .fd f) (hz : f.st_size = some size) (hsz : size < 2 ^ 64)
    (hreads : f.reads = chunks.map ReadResult.data ++ rest)
    (hc : ∀ c ∈ chunks, c ≠ [])
    (hr : rest.head? = none ∨ rest.head? = some (ReadResult.data []))
    (hsock : ∀ r ∈ w.sock, r ≠ WriteResult.fail) :
    ∃ evs, handle_req request w = some evs ∧
      transmitted evs = spec_header (str "HTTP/1.1 200 OK") (mime_from_path path) size
        ++ chunks.flatten := by
  obtain ⟨evs, he, _, _, h3⟩ := sends_ok request w start mem path f size hp hs hf hz
  refine ⟨evs, he, ?_⟩
  rw [h3 hsock, hreads, delivered_chunks chunks rest hc hr, Nat.mod_eq_of_lt hsz]


/-! ### The claims on `handle_req` and `send_simple_response` -/

/-- C6: `handle_req` picks the status line from the outcome and sends one
response with it: 400 when `to_path` returns a null pointer, 404 when `open`
fails with `ENOENT`, 500 when `open` fails otherwise or `fstat` fails, 200 when
both succeed.  In each case the first `write` call offers the header that
starts with that status line, and the bytes put on the socket are the first
bytes of that single response, all of them when no write fails. -/
theorem handle_req_status (request : List Nat) (w : World) :
    (to_path request = .null →
      ∃ evs, handle_req request w = some evs ∧ sends_one_response evs w.sock
        (spec_header (str "HTTP/1.1 400 Bad Request") (str "text/html; charset=utf-8")
          (str "<h1>400 Bad Request</h1>\n").length)
        (str "<h1>400 Bad Request</h1>\n"))
    ∧ ∀ start mem path, to_path request = .ptr start mem → c_string mem start = some path →
      (w.fs path = .error ENOENT →
        ∃ evs, handle_req request w = some evs ∧ sends_one_response evs w.sock
          (spec_header (str "HTTP/1.1 404 Not Found") (str "text/html; charset=utf-8")
            (str "<h1>404 Not Found</h1>\n").length)
          (str "<h1>404 Not Found</h1>\n"))
      ∧ (∀ errno, errno ≠ ENOENT → w.fs path = .error errno →
        ∃ evs, handle_req request w = some evs ∧ sends_one_response evs w.sock
          (spec_header (str "HTTP/1.1 500 Internal Server Error")
            (str "text/html; charset=utf-8") (str "<h1>500 Internal Server Error</h1>\n").length)
          (str "<h1>500 Internal Server Error</h1>\n"))
      ∧ (∀ f, w.fs path = .fd f → f.st_size = none →
        ∃ evs, handle_req request w = some evs ∧ sends_one_response evs w.sock
          (spec_header (str "HTTP/1.1 500 Internal Server Error")
            (str "text/html; charset=utf-8") (str "<h1>500 Internal Server Error</h1>\n").length)
          (str "<h1>500 Internal Server Error</h1>\n"))
      ∧ (∀ f size, w.fs path = .fd f → f.st_size = some size →
        ∃ evs, handle_req request w = some evs ∧ sends_one_response evs w.sock
          (spec_header (str "HTTP/1.1 200 OK") (mime_from_path path) (size % 2 ^ 64))
          (delivered f.reads)) := by
  refine ⟨?_, ?_⟩
  · intro hp
    refine ⟨_, by simp only [handle_req, hp]; rfl, ?_⟩
    exact sends_simple [] _ _ _ _ ⟨rfl, rfl⟩ error_pages_fit.1
  · intro start mem path hp hs
    refine ⟨?_, ?_, ?_, ?_⟩
    · intro hf
      refine ⟨_, by simp only [handle_req, hp, hs, hf, if_true]; rfl, ?_⟩
      exact sends_simple [.sys_open path] _ _ _ _ ⟨rfl, rfl⟩ error_pages_fit.2.1
    · intro errno hne hf
      refine ⟨_, by simp only [handle_req, hp, hs, hf, if_neg hne]; rfl, ?_⟩
      exact sends_simple [.sys_open path] _ _ _ _ ⟨rfl, rfl⟩ error_pages_fit.2.2
    · intro f hf hz
      refine ⟨_, by simp only [handle_req, hp, hs, hf, hz]; rfl, ?_⟩
      exact sends_simple [.sys_open path, .sys_fstat, .sys_close] _ _ _ _ ⟨rfl, rfl⟩
        error_pages_fit.2.2
    · intro f size hf hz
      exact sends_ok request w start mem path f size hp hs hf hz

/-- Witness of C6: `GET /blog` on a file system without `blog/index.html`
carries the 404 response. -/
theorem handle_req_status_witness :
    ∃ evs, handle_req (str "GET /blog HTTP/1.1\nHost: example.com" ++ [0])
        { fs := about_fs, sock := [] } = some evs
      ∧ sends_one_response evs []
        (spec_header (str "HTTP/1.1 404 Not Found") (str "text/html; charset=utf-8")
          (str "<h1>404 Not Found</h1>\n").length)
        (str "<h1>404 Not Found</h1>\n") :=
  ((handle_req_status (str "GET /blog HTTP/1.1\nHost: example.com" ++ [0])
      { fs := about_fs, sock := [] }).2 5
      (str "GET /blog/index.html" ++ 0 :: str "st: example.com" ++ [0])
      (str "blog/index.html") (by decide) (by decide)).1 (by decide)


set_option maxRecDepth 100000 in
/-- C7, as stated, fails: in a file system where `about.html` is a regular
file holding `hello`, the request `GET /about.html HTTP/1.1` makes `handle_req`
open `about.html/index.html`; that fails with `ENOTDIR` and the response is the
500 page, not the file. -/
theorem about_html_not_served :
    about_fs (str "about.html")
        = .fd { st_size := some 5, reads := [.data (str "hello")], close_ok := true }
    ∧ (handle_req (str "GET /about.html HTTP/1.1\r\nHost: localhost\r\n\r\n" ++ [0])
          { fs := about_fs, sock := [] }).map List.head?
        = some (some (Event.sys_open (str "about.html/index.html")))
    ∧ (handle_req (str "GET /about.html HTTP/1.1\r\nHost: localhost\r\n\r\n" ++ [0])
          { fs := about_fs, sock := [] }).map transmitted
        = some (str "HTTP/1.1 500 Internal Server Error\r\nContent-Type: text/html; charset=utf-8\r\nContent-Length: 35\r\nConnection: close\r\n\r\n<h1>500 Internal Server Error</h1>\n") := by
  decide

/-- C7, amended: the request `GET /about.html REST` (REST of at least 10
bytes) is served from the normalized path `about.html/index.html`.  When that
path is an existing file of size `size` whose reads deliver `size` bytes, and
no write fails, the bytes put on the socket are the header
`HTTP/1.1 200 OK`, `Content-Type: text/html; charset=utf-8`,
`Content-Length: size`, `Connection: close`, followed by exactly the `size`
bytes of the file. -/
theorem handle_req_about_index (REST tail : List Nat) (w : World) (f : File) (size : Nat)
    (chunks : List (List Nat)) (rest : List ReadResult)
    (hR : 10 ≤ REST.length)
    (hf : w.fs (str "about.html/index.html") = .fd f)
    (hz : f.st_size = some size) (hsz : size < 2 ^ 64)
    (hreads : f.reads = chunks.map ReadResult.data ++ rest)
    (hc : ∀ c ∈ chunks, c ≠ [])
    (hr : rest.head? = none ∨ rest.head? = some (ReadResult.data []))
    (hlen : chunks.flatten.length = size)
    (hsock : ∀ r ∈ w.sock, r ≠ WriteResult.fail) :
    ∃ evs, handle_req (str "GET" ++ str " /" ++ str "about.html" ++ str " " ++ REST ++ 0 :: tail) w
        = some evs
      ∧ transmitted evs = str "HTTP/1.1 200 OK" ++ str "\r\nContent-Type: "
          ++ str "text/html; charset=utf-8" ++ str "\r\nContent-Length: " ++ fmt_zu size
          ++ str "\r\nConnection: close\r\n\r\n" ++ chunks.flatten
      ∧ chunks.flatten.length = size := by
  obtain ⟨mem, hp, hs⟩ := to_path_inserts_slash (str "GET") (str "about.html") REST tail
    (by decide) (by decide) (by decide) (by decide) hR
  have hs' : c_string mem ((str "GET").length + 2) = some (str "about.html/index.html") := by
    rw [hs]; decide
  obtain ⟨evs, he, ht⟩ := handle_req_serves _ w _ mem _ f size chunks rest hp hs' hf hz hsz
    hreads hc hr hsock
  refine ⟨evs, he, ?_, hlen⟩
  have hm : mime_from_path (str "about.html/index.html") = str "text/html; charset=utf-8" := by
    decide
  rw [ht, spec_header_text, hm]

/-- Witness of C7 amended: `about.html/index.html` holds `hello`. -/
theorem handle_req_about_index_witness :
    ∃ evs, handle_req (str "GET" ++ str " /" ++ str "about.html" ++ str " "
          ++ str "HTTP/1.1\r\nHost: localhost\r\n\r\n" ++ 0 :: [])
          { fs := hello_fs, sock := [.accept 7] } = some evs
      ∧ transmitted evs = str "HTTP/1.1 200 OK" ++ str "\r\nContent-Type: "
          ++ str "text/html; charset=utf-8" ++ str "\r\nContent-Length: " ++ fmt_zu 5
          ++ str "\r\nConnection: close\r\n\r\n" ++ [str "hel", str "lo"].flatten
      ∧ [str "hel", str "lo"].flatten.length = 5 :=
  handle_req_about_index (str "HTTP/1.1\r\nHost: localhost\r\n\r\n") []
    { fs := hello_fs, sock := [.accept 7] } hello_file 5 [str "hel", str "lo"] []
    (by decide) (by decide) (by decide) (by decide) (by decide) (by decide) (by decide)
    (by decide) (by decide)

/-- C8: for a request that `to_path` accepts and whose path `open` reports
missing (`ENOENT`), on a socket none of whose writes fails, `handle_req` puts
on the socket exactly the 404 response: the header with `Content-Length: 23`
and the 23 bytes of the literal body.  The file is never read. -/
theorem handle_req_not_found (request : List Nat) (w : World) (start : Nat)
    (mem path : List Nat)
    (hp : to_path request = .ptr start mem) (hs : c_string mem start = some path)
    (hf : w.fs path = .error ENOENT)
    (hsock : ∀ r ∈ w.sock, r ≠ WriteResult.fail) :
    ∃ evs, handle_req request w = some evs
      ∧ transmitted evs = str "HTTP/1.1 404 Not Found\r\nContent-Type: text/html; charset=utf-8\r\nContent-Length: 23\r\nConnection: close\r\n\r\n" ++ str "<h1>404 Not Found</h1>\n"
      ∧ (str "<h1>404 Not Found</h1>\n").length = 23
      ∧ ∀ e ∈ evs, ∀ n, e ≠ Event.sys_read n := by
  have he : handle_req request w = some (.sys_open path ::
      (send_simple_response w.sock (str "HTTP/1.1 404 Not Found")
        (some (str "text/html; charset=utf-8")) (some (str "<h1>404 Not Found</h1>\n"))).2) := by
    simp only [handle_req, hp, hs, hf, if_true]
  refine ⟨_, he, ?_, by decide, ?_⟩
  · have h := send_simple_response_no_fail w.sock (str "HTTP/1.1 404 Not Found")
      (some (str "text/html; charset=utf-8")) (some (str "<h1>404 Not Found</h1>\n"))
      error_pages_fit.2.1 hsock
    have htxt : spec_header (str "HTTP/1.1 404 Not Found") (str "text/html; charset=utf-8")
        (str "<h1>404 Not Found</h1>\n").length
        = str "HTTP/1.1 404 Not Found\r\nContent-Type: text/html; charset=utf-8\r\nContent-Length: 23\r\nConnection: close\r\n\r\n" := by
      decide
    simp only [transmitted, Event.sent, List.nil_append]
    rw [h, spec_response, Option.getD_some, Option.getD_some, htxt]
  · intro e he' n hn
    rcases List.mem_cons.mp he' with h | h
    · rw [h] at hn; cases hn
    · obtain ⟨b, m, hb⟩ := send_simple_response_events _ _ _ _ e h
      rw [hb] at hn; cases hn

/-- Witness of C8: `GET /nothing` on a file system without that path. -/
theorem handle_req_not_found_witness :
    ∃ evs, handle_req (str "GET /nothing HTTP/1.1\r\n\r\n" ++ [0])
        { fs := hello_fs, sock := [.accept 3, .accept 0] } = some evs
      ∧ transmitted evs = str "HTTP/1.1 404 Not Found\r\nContent-Type: text/html; charset=utf-8\r\nContent-Length: 23\r\nConnection: close\r\n\r\n" ++ str "<h1>404 Not Found</h1>\n"
      ∧ (str "<h1>404 Not Found</h1>\n").length = 23
      ∧ ∀ e ∈ evs, ∀ n, e ≠ Event.sys_read n :=
  handle_req_not_found (str "GET /nothing HTTP/1.1\r\n\r\n" ++ [0])
    { fs := hello_fs, sock := [.accept 3, .accept 0] } 5
    (str "GET /nothing/index.html" ++ 0 :: str "\n" ++ [0]) (str "nothing/index.html")
    (by decide) (by decide) (by decide) (by decide)


/-- C9: when the rendered header is shorter than 256 bytes and no write of the
socket fails, `send_simple_response` puts on the socket exactly the status
line, `Content-Type`, `Content-Length` with the decimal byte count of the
body, `Connection: close`, an empty line, and then the body.  A null content
type is rendered as `text/plain; charset=utf-8`, a null body as length 0 and
no body bytes. -/
theorem send_simple_response_wire (sock : List WriteResult) (status : List Nat)
    (ct body : Option (List Nat))
    (hfit : (status ++ str "\r\nContent-Type: "
        ++ ct.getD (str "text/plain; charset=utf-8")
        ++ str "\r\nContent-Length: " ++ fmt_zu (body.getD []).length
        ++ str "\r\nConnection: close\r\n\r\n").length < 256)
    (hsock : ∀ r ∈ sock, r ≠ WriteResult.fail) :
    transmitted (send_simple_response sock status ct body).2
      = status ++ str "\r\nContent-Type: "
        ++ ct.getD (str "text/plain; charset=utf-8")
        ++ str "\r\nContent-Length: " ++ fmt_zu (body.getD []).length
        ++ str "\r\nConnection: close\r\n\r\n"
        ++ body.getD [] := by
  rw [← spec_header_text] at hfit ⊢
  exact send_simple_response_no_fail sock status ct body hfit hsock

/-- Witness of C9: a response with a null content type and a null body, on a
socket that takes 5 bytes, then nothing, then the rest. -/
theorem send_simple_response_wire_witness :
    transmitted (send_simple_response [.accept 5, .accept 0] (str "HTTP/1.1 204 No Content")
        none none).2
      = str "HTTP/1.1 204 No Content" ++ str "\r\nContent-Type: "
        ++ (none : Option (List Nat)).getD (str "text/plain; charset=utf-8")
        ++ str "\r\nContent-Length: " ++ fmt_zu ((none : Option (List Nat)).getD []).length
        ++ str "\r\nConnection: close\r\n\r\n"
        ++ (none : Option (List Nat)).getD [] :=
  send_simple_response_wire [.accept 5, .accept 0] (str "HTTP/1.1 204 No Content") none none
    (by decide) (by decide)

/-- C10: when `open` and `fstat` succeed with size `size`, no write fails and
the reads deliver the chunks `chunks` and then the end of the file,
`handle_req` puts on the socket the 200 header with
`Content-Type: mime_from_path(path)` and `Content-Length: size`, immediately
followed by the chunks in order; when the chunks hold `size` bytes in total,
the body has as many bytes as `Content-Length` says. -/
theorem handle_req_streams (request : List Nat) (w : World) (start : Nat) (mem path : List Nat)
    (f : File) (size : Nat) (chunks : List (List Nat)) (rest : List ReadResult)
    (hp : to_path request = .ptr start mem) (hs : c_string mem start = some path)
    (hf : w.fs path = .fd f) (hz : f.st_size = some size) (hsz : size < 2 ^ 64)
    (hreads : f.reads = chunks.map ReadResult.data ++ rest)
    (hc : ∀ c ∈ chunks, c ≠ [])
    (hr : rest.head? = none ∨ rest.head? = some (ReadResult.data []))
    (hsock : ∀ r ∈ w.sock, r ≠ WriteResult.fail) :
    ∃ evs body, handle_req request w = some evs
      ∧ transmitted evs = str "HTTP/1.1 200 OK" ++ str "\r\nContent-Type: "
          ++ mime_from_path path ++ str "\r\nContent-Length: " ++ fmt_zu size
          ++ str "\r\nConnection: close\r\n\r\n" ++ body
      ∧ body = chunks.flatten
      ∧ (chunks.flatten.length = size → body.length = size) := by
  obtain ⟨evs, he, ht⟩ := handle_req_serves request w start mem path f size chunks rest hp hs
    hf hz hsz hreads hc hr hsock
  refine ⟨evs, chunks.flatten, he, ?_, rfl, fun h => h⟩
  rw [ht, spec_header_text]

/-- Witness of C10: `GET /blog` where `blog/index.html` holds `hello`, read in
two chunks. -/
theorem handle_req_streams_witness :
    ∃ evs body, handle_req (str "GET /blog HTTP/1.1\nHost: example.com" ++ [0])
          { fs := hello_fs, sock := [.accept 40] } = some evs
      ∧ transmitted evs = str "HTTP/1.1 200 OK" ++ str "\r\nContent-Type: "
          ++ mime_from_path (str "blog/index.html") ++ str "\r\nContent-Length: " ++ fmt_zu 5
          ++ str "\r\nConnection: close\r\n\r\n" ++ body
      ∧ body = [str "hel", str "lo"].flatten
      ∧ ([str "hel", str "lo"].flatten.length = 5 → body.length = 5) :=
  handle_req_streams (str "GET /blog HTTP/1.1\nHost: example.com" ++ [0])
    { fs := hello_fs, sock := [.accept 40] } 5
    (str "GET /blog/index.html" ++ 0 :: str "st: example.com" ++ [0]) (str "blog/index.html")
    hello_file 5 [str "hel", str "lo"] []
    (by decide) (by decide) (by decide) (by decide) (by decide) (by decide) (by decide)
    (by decide) (by decide)


/-! ### The claims on `write_all` -/

theorem offered_length_write_all_nil (buf : List Nat) :
    (offered (write_all [] buf).2.2).length = if buf.length = 0 then 0 else 1 := by
  unfold write_all
  split <;> simp [offered]

/-- On a socket that takes at most `N` bytes per call, `write_all` makes
`⌈len / N⌉` calls and returns 0. -/
theorem write_all_capped (N k : Nat) (buf : List Nat) (hN : 1 ≤ N)
    (hk : (buf.length + N - 1) / N ≤ k) :
    (write_all (List.replicate k (WriteResult.accept N)) buf).1 = 0
    ∧ (offered (write_all (List.replicate k (WriteResult.accept N)) buf).2.2).length
        = (buf.length + N - 1) / N := by
  induction k generalizing buf with
  | zero =>
    have h0 : (buf.length + N - 1) / N = 0 := Nat.le_zero.mp hk
    have hlt : buf.length + N - 1 < N := (Nat.div_eq_zero_iff (by omega)).mp h0
    have hb : buf.length = 0 := by omega
    rw [h0]
    simp [write_all, hb, offered]
  | succ k ih =>
    rw [List.replicate_succ]
    unfold write_all
    by_cases hb : buf.length = 0
    · have h0 : (buf.length + N - 1) / N = 0 := by
        rw [hb]
        exact Nat.div_eq_of_lt (by omega)
      rw [h0]
      simp [hb, offered]
    · have hn : ¬ (sys_write (WriteResult.accept N) buf.length < 0) := by
        simp [sys_write]
      have hv : (sys_write (WriteResult.accept N) buf.length).toNat = min N buf.length := by
        simp only [sys_write]
        omega
      simp only [hb, hn, if_false, offered, List.length_cons, hv]
      by_cases hle : buf.length ≤ N
      · have hd : buf.drop (min N buf.length) = [] := by
          rw [Nat.min_eq_right hle]
          exact List.drop_length buf
        have h1 : (buf.length + N - 1) / N = 1 := by
          have e : buf.length + N - 1 = (buf.length - 1) + N := by omega
          rw [e, Nat.add_div_right _ (by omega), Nat.div_eq_of_lt (by omega)]
        rw [hd, h1]
        cases k <;> simp [write_all, offered]
      · have hlen : (buf.drop (min N buf.length)).length = buf.length - N := by
          rw [List.length_drop, Nat.min_eq_left (by omega)]
        have e : buf.length + N - 1 = (buf.length - N + N - 1) + N := by omega
        have hk' : ((buf.drop (min N buf.length)).length + N - 1) / N ≤ k := by
          rw [hlen]
          rw [e, Nat.add_div_right _ (by omega)] at hk
          omega
        obtain ⟨ih1, ih2⟩ := ih (buf.drop (min N buf.length)) hk'
        refine ⟨ih1, ?_⟩
        rw [ih2, hlen, e, Nat.add_div_right _ (by omega)]

/-- C11: for a buffer of `M` bytes and a destination that takes at most `N`
bytes per call, `1 ≤ N` (in particular `N < M`), `write_all` makes exactly
`⌈M / N⌉` calls of `write`, returns 0, and has then transferred `M` bytes; on
any destination, it returns 0 only when the bytes transferred are the `M`
bytes of the buffer. -/
theorem write_all_short_writes (N k : Nat) (buf : List Nat) (hN : 1 ≤ N)
    (hk : (buf.length + N - 1) / N ≤ k) :
    (offered (write_all (List.replicate k (WriteResult.accept N)) buf).2.2).length
        = (buf.length + N - 1) / N
    ∧ (write_all (List.replicate k (WriteResult.accept N)) buf).1 = 0
    ∧ (transmitted (write_all (List.replicate k (WriteResult.accept N)) buf).2.2).length
        = buf.length
    ∧ ∀ sock, (write_all sock buf).1 = 0 →
        (transmitted (write_all sock buf).2.2).length = buf.length := by
  obtain ⟨h1, h2⟩ := write_all_capped N k buf hN hk
  refine ⟨h2, h1, ?_, ?_⟩
  · rw [write_all_ok _ _ h1]
  · intro sock h
    rw [write_all_ok _ _ h]

/-- Witness of C11: 10 bytes on a socket that takes 4 bytes per call go out
in 3 calls. -/
theorem write_all_short_writes_witness :
    (offered (write_all (List.replicate 5 (WriteResult.accept 4))
        (str "0123456789")).2.2).length = ((str "0123456789").length + 4 - 1) / 4
    ∧ (write_all (List.replicate 5 (WriteResult.accept 4)) (str "0123456789")).1 = 0
    ∧ (transmitted (write_all (List.replicate 5 (WriteResult.accept 4))
        (str "0123456789")).2.2).length = (str "0123456789").length
    ∧ ∀ sock, (write_all sock (str "0123456789")).1 = 0 →
        (transmitted (write_all sock (str "0123456789")).2.2).length
          = (str "0123456789").length :=
  write_all_short_writes 4 5 (str "0123456789") (by decide) (by decide)


theorem transmitted_sys_write (b : List Nat) (n : Nat) (es : List Event) (h : n ≤ b.length) :
    (transmitted (Event.sys_write b n :: es)).length = n + (transmitted es).length := by
  simp [transmitted, Event.sent]
  omega

/-- Every `write` call of `write_all` offers the part of the buffer not yet
transferred, and a call that fails is the last one. -/
theorem write_all_calls (sock : List WriteResult) (buf : List Nat) :
    ∀ pre b n post, (write_all sock buf).2.2 = pre ++ Event.sys_write b n :: post →
      b = buf.drop (transmitted pre).length ∧ (n < 0 → post = []) := by
  induction sock generalizing buf with
  | nil =>
    intro pre b n post h
    unfold write_all at h
    by_cases hb : buf.length = 0
    · simp [hb] at h
    · simp only [hb, if_false] at h
      cases pre with
      | nil =>
        simp only [List.nil_append, List.cons.injEq, Event.sys_write.injEq] at h
        obtain ⟨⟨h1, h2⟩, h3⟩ := h
        refine ⟨by simp [transmitted, h1], fun hn => ?_⟩
        omega
      | cons e pre => simp at h
  | cons r sock ih =>
    intro pre b n post h
    unfold write_all at h
    by_cases hb : buf.length = 0
    · simp [hb] at h
    · rcases sys_write_bounds r buf.length with hn | ⟨m, hle, hn⟩
      · have hneg : sys_write r buf.length < 0 := by rw [hn]; decide
        simp only [hb, hneg, if_true, if_false] at h
        cases pre with
        | nil =>
          simp only [List.nil_append, List.cons.injEq, Event.sys_write.injEq] at h
          obtain ⟨⟨h1, _⟩, h3⟩ := h
          exact ⟨by simp [transmitted, h1], fun _ => h3.symm⟩
        | cons e pre => simp at h
      · have hnn : ¬ ((m : Int) < 0) := by omega
        simp only [hb, hn, hnn, if_false, Int.toNat_ofNat] at h
        cases pre with
        | nil =>
          simp only [List.nil_append, List.cons.injEq, Event.sys_write.injEq] at h
          obtain ⟨⟨h1, h2⟩, _⟩ := h
          refine ⟨by simp [transmitted, h1], fun hlt => ?_⟩
          omega
        | cons e pre =>
          simp only [List.cons_append, List.cons.injEq] at h
          obtain ⟨h1, h2⟩ := h
          obtain ⟨ih1, ih2⟩ := ih (buf.drop m) pre b n post h2
          refine ⟨?_, ih2⟩
          rw [ih1, ← h1, transmitted_sys_write buf m pre hle, List.drop_drop]

/-- `write_all` returns -1 exactly when one of its `write` calls fails. -/
theorem write_all_fail_iff (sock : List WriteResult) (buf : List Nat) :
    (write_all sock buf).1 = -1 ↔
      ∃ b n, Event.sys_write b n ∈ (write_all sock buf).2.2 ∧ n < 0 := by
  induction sock generalizing buf with
  | nil =>
    unfold write_all
    by_cases hb : buf.length = 0
    · simp [hb]
    · simp only [hb, if_false]
      constructor
      · intro h; simp at h
      · rintro ⟨b, n, hm, hn⟩
        simp only [List.mem_singleton, Event.sys_write.injEq] at hm
        omega
  | cons r sock ih =>
    unfold write_all
    by_cases hb : buf.length = 0
    · simp [hb]
    · rcases sys_write_bounds r buf.length with hn | ⟨m, hle, hn⟩
      · have hneg : sys_write r buf.length < 0 := by rw [hn]; decide
        simp only [hb, hneg, if_true, if_false]
        constructor
        · intro _
          exact ⟨buf, sys_write r buf.length, by simp, hneg⟩
        · intro _; trivial
      · have hnn : ¬ ((m : Int) < 0) := by omega
        simp only [hb, hn, hnn, if_false, Int.toNat_ofNat]
        rw [ih]
        constructor
        · rintro ⟨b, n, hm, hlt⟩
          exact ⟨b, n, List.mem_cons_of_mem _ hm, hlt⟩
        · rintro ⟨b, n, hm, hlt⟩
          rcases List.mem_cons.mp hm with h | h
          · simp only [Event.sys_write.injEq] at h
            omega
          · exact ⟨b, n, h, hlt⟩

/-- C12: on every socket, each `write` call of `write_all` offers exactly the
part of the buffer not yet transferred; when `write_all` returns 0 the bytes
accepted across the calls are the whole buffer; it returns -1 exactly when
one of the calls fails, and that call is its last. -/
theorem write_all_contract (sock : List WriteResult) (buf : List Nat) :
    (∀ pre b n post, (write_all sock buf).2.2 = pre ++ Event.sys_write b n :: post →
        b = buf.drop (transmitted pre).length)
    ∧ ((write_all sock buf).1 = 0 → transmitted (write_all sock buf).2.2 = buf)
    ∧ ((write_all sock buf).1 = -1 ↔
        ∃ b n, Event.sys_write b n ∈ (write_all sock buf).2.2 ∧ n < 0)
    ∧ (∀ pre b n post, (write_all sock buf).2.2 = pre ++ Event.sys_write b n :: post →
        n < 0 → post = [])
    ∧ ((write_all sock buf).1 = 0 ∨ (write_all sock buf).1 = -1) :=
  ⟨fun pre b n post h => (write_all_calls sock buf pre b n post h).1,
   write_all_ok sock buf,
   write_all_fail_iff sock buf,
   fun pre b n post h => (write_all_calls sock buf pre b n post h).2,
   write_all_ret sock buf⟩

/-- Witness of C12: a socket that takes 3 bytes, then 4, then fails. -/
theorem write_all_contract_witness :
    (write_all [.accept 3, .accept 4, .fail] (str "0123456789")).2.2
        = [Event.sys_write (str "0123456789") 3, Event.sys_write (str "3456789") 4]
          ++ Event.sys_write (str "789") (-1) :: []
    ∧ str "789" = (str "0123456789").drop
        (transmitted [Event.sys_write (str "0123456789") 3,
          Event.sys_write (str "3456789") 4]).length
    ∧ (write_all [.accept 3, .accept 4, .fail] (str "0123456789")).1 = -1 :=
  ⟨by decide,
   (write_all_contract [.accept 3, .accept 4, .fail] (str "0123456789")).1
     [Event.sys_write (str "0123456789") 3, Event.sys_write (str "3456789") 4]
     (str "789") (-1) [] (by decide),
   (write_all_contract [.accept 3, .accept 4, .fail] (str "0123456789")).2.2.1.mpr
     ⟨str "789", -1, by decide, by decide⟩⟩


/-- C13: `send_simple_response` fails closed on header overflow.  When the
rendered header has 256 bytes or more, it makes no `write` call at all, so no
byte of header or body reaches the socket; when it has 255 bytes or fewer,
its first `write` call offers the whole header, and on a socket none of whose
writes fails the header is on the socket in full. -/
theorem send_simple_response_fail_closed (sock : List WriteResult) (status : List Nat)
    (ct body : Option (List Nat)) :
    (256 ≤ (spec_header status (ct.getD (str "text/plain; charset=utf-8"))
        (body.getD []).length).length →
      (send_simple_response sock status ct body).2 = []
      ∧ transmitted (send_simple_response sock status ct body).2 = []
      ∧ (send_simple_response sock status ct body).1 = sock)
    ∧ ((spec_header status (ct.getD (str "text/plain; charset=utf-8"))
        (body.getD []).length).length ≤ 255 →
      (offered (send_simple_response sock status ct body).2).head?
        = some (spec_header status (ct.getD (str "text/plain; charset=utf-8"))
            (body.getD []).length)
      ∧ ((∀ r ∈ sock, r ≠ WriteResult.fail) →
        spec_header status (ct.getD (str "text/plain; charset=utf-8")) (body.getD []).length
          <+: transmitted (send_simple_response sock status ct body).2)) := by
  constructor
  · intro hov
    rw [send_simple_response_overflow sock status ct body hov]
    exact ⟨rfl, rfl, rfl⟩
  · intro hfit
    have hfit' : (spec_header status (ct.getD (str "text/plain; charset=utf-8"))
        (body.getD []).length).length < 256 := by omega
    refine ⟨send_simple_response_offered sock status ct body hfit', fun hs => ?_⟩
    rw [send_simple_response_no_fail sock status ct body hfit' hs, spec_response]
    exact List.prefix_append _ _

/-- Witness of C13: a status line of 300 bytes overflows the header buffer and
nothing is written; the 404 page fits and its header is offered in full. -/
theorem send_simple_response_fail_closed_witness :
    ((send_simple_response [] (List.replicate 300 65) none (some (str "body"))).2 = []
      ∧ transmitted (send_simple_response [] (List.replicate 300 65) none
          (some (str "body"))).2 = []
      ∧ (send_simple_response [] (List.replicate 300 65) none (some (str "body"))).1 = [])
    ∧ (offered (send_simple_response [] (str "HTTP/1.1 404 Not Found")
          (some (str "text/html; charset=utf-8")) (some (str "<h1>404 Not Found</h1>\n"))).2).head?
        = some (spec_header (str "HTTP/1.1 404 Not Found")
            ((some (str "text/html; charset=utf-8")).getD (str "text/plain; charset=utf-8"))
            ((some (str "<h1>404 Not Found</h1>\n")).getD []).length) :=
  ⟨(send_simple_response_fail_closed [] (List.replicate 300 65) none (some (str "body"))).1
      (by simp only [spec_header, List.length_append, List.length_replicate]; omega),
   ((send_simple_response_fail_closed [] (str "HTTP/1.1 404 Not Found")
      (some (str "text/html; charset=utf-8")) (some (str "<h1>404 Not Found</h1>\n"))).2
      (Nat.le_of_lt_succ error_pages_fit.2.1)).1⟩


/-! ### More on `to_path`: what it accepts and what it returns -/

/-- The string `to_path` returns on a block with both separators and room
for the default name: the bytes between the skipped byte and the second
space, a slash unless the byte before the second space is one, and
`index.html`. -/
theorem to_path_returns (M seg REST tail : List Nat) (x : Nat)
    (hM : ∀ c ∈ M, c ≠ 32 ∧ c ≠ 0) (hseg : ∀ c ∈ seg, c ≠ 32 ∧ c ≠ 0)
    (hR : 10 ≤ REST.length) :
    ∃ mem, to_path (M ++ 32 :: x :: (seg ++ 32 :: (REST ++ 0 :: tail)))
        = .ptr (M.length + 2) mem
      ∧ c_string mem (M.length + 2)
        = some (seg ++ (if (x :: seg).getLast? = some 47 then [] else [47]) ++ DEFAULT_FILE) := by
  obtain ⟨c, hc⟩ : ∃ c, (x :: seg).getLast? = some c := by
    cases h : (x :: seg).getLast? with
    | none => simp at h
    | some c => exact ⟨c, rfl⟩
  have hlen : 11 ≤ (REST ++ 0 :: tail).length := by simp; omega
  have hlen' : 10 ≤ (REST ++ 0 :: tail).length := by omega
  by_cases h47 : c = 47
  · refine ⟨M ++ 32 :: x :: (seg ++ (DEFAULT_FILE ++ 0 :: (REST ++ 0 :: tail).drop 10)), ?_, ?_⟩
    · rw [to_path_shape M seg _ x c hM hseg hc, if_neg (by simp [h47]), if_pos hlen']
    · rw [hc, h47, if_pos rfl, List.append_nil]
      exact c_string_with_slash M seg _ x hseg
  · refine ⟨M ++ 32 :: x :: (seg ++ 47 :: (DEFAULT_FILE ++ 0 :: (REST ++ 0 :: tail).drop 11)),
      ?_, ?_⟩
    · rw [to_path_shape M seg _ x c hM hseg hc, if_pos h47, if_pos hlen]
    · have hne : ¬ (some c = some 47) := fun h => h47 (Option.some.inj h)
      rw [hc, if_neg hne]
      have hseg' : ∀ d ∈ seg ++ [47], d ≠ 32 ∧ d ≠ 0 := by
        intro d hd
        rcases List.mem_append.mp hd with h | h
        · exact hseg d h
        · simp at h; subst h; decide
      have e := c_string_with_slash M (seg ++ [47]) ((REST ++ 0 :: tail).drop 11) x hseg'
      have e1 : seg ++ [47] ++ (DEFAULT_FILE ++ 0 :: List.drop 11 (REST ++ 0 :: tail))
          = seg ++ 47 :: (DEFAULT_FILE ++ 0 :: List.drop 11 (REST ++ 0 :: tail)) := by simp
      rw [e1] at e
      exact e

/-- A scanning loop that stops on a space has walked over a token without
space or NUL. -/
theorem scan_found_inv (l : List Nat) (i j : Nat) (h : scan l i = .found j) :
    ∃ tok rest, l = tok ++ 32 :: rest ∧ (∀ c ∈ tok, c ≠ 32 ∧ c ≠ 0) ∧ j = i + tok.length := by
  induction l generalizing i with
  | nil => simp [scan] at h
  | cons c l ih =>
    unfold scan at h
    by_cases h32 : c = 32
    · simp only [h32, if_true, Scan.found.injEq] at h
      exact ⟨[], l, by simp [h32], by simp, by simp [h]⟩
    · by_cases h0 : c = 0
      · simp [h32, h0] at h
      · simp only [h32, h0, if_false] at h
        obtain ⟨tok, rest, h1, h2, h3⟩ := ih (i + 1) h
        refine ⟨c :: tok, rest, by simp [h1], ?_, by simp [h3]; omega⟩
        intro d hd
        rcases List.mem_cons.mp hd with e | e
        · rw [e]; exact ⟨h32, h0⟩
        · exact h2 d e

/-- Every block on which `to_path` returns a pointer has both separators, and
the pointer and the block afterwards are as `to_path_shape` says. -/
theorem to_path_ptr_inv (req : List Nat) (start : Nat) (mem : List Nat)
    (h : to_path req = .ptr start mem) :
    ∃ M x seg rest c, req = M ++ 32 :: x :: (seg ++ 32 :: rest)
      ∧ (∀ c ∈ M, c ≠ 32 ∧ c ≠ 0) ∧ (∀ c ∈ seg, c ≠ 32 ∧ c ≠ 0)
      ∧ (x :: seg).getLast? = some c ∧ start = M.length + 2
      ∧ ((c ≠ 47 ∧ 11 ≤ rest.length
          ∧ mem = M ++ 32 :: x :: (seg ++ 47 :: (DEFAULT_FILE ++ 0 :: rest.drop 11)))
        ∨ (c = 47 ∧ 10 ≤ rest.length
          ∧ mem = M ++ 32 :: x :: (seg ++ (DEFAULT_FILE ++ 0 :: rest.drop 10)))) := by
  have h' := h
  unfold to_path at h'
  cases hs1 : scan req 0 with
  | nul => simp [hs1] at h'
  | fault => simp [hs1] at h'
  | found s =>
    obtain ⟨M, r1, hreq, hM, hs⟩ := scan_found_inv req 0 s hs1
    have hsM : s = M.length := by omega
    subst hsM
    simp only [hs1] at h'
    cases hs2 : scan (req.drop (M.length + 2)) (M.length + 2) with
    | nul => simp [hs2] at h'
    | fault => simp [hs2] at h'
    | found e =>
      cases r1 with
      | nil =>
        have : req.drop (M.length + 2) = [] := by
          rw [hreq]; simp
        rw [this] at hs2
        simp [scan] at hs2
      | cons x r2 =>
        have hd : req.drop (M.length + 2) = r2 := by
          rw [hreq, List.drop_append_eq_append_drop]
          simp
        rw [hd] at hs2
        obtain ⟨seg, rest, hr2, hseg, _⟩ := scan_found_inv r2 _ e hs2
        obtain ⟨c, hc⟩ : ∃ c, (x :: seg).getLast? = some c := by
          cases hl : (x :: seg).getLast? with
          | none => simp at hl
          | some c => exact ⟨c, rfl⟩
        have hreq' : req = M ++ 32 :: x :: (seg ++ 32 :: rest) := by rw [hreq, hr2]
        refine ⟨M, x, seg, rest, c, hreq', hM, hseg, hc, ?_⟩
        rw [hreq', to_path_shape M seg rest x c hM hseg hc] at h
        by_cases h47 : c = 47
        · rw [if_neg (by simp [h47])] at h
          by_cases hl : 10 ≤ rest.length
          · rw [if_pos hl] at h
            injection h with h1 h2
            exact ⟨h1.symm, Or.inr ⟨h47, hl, h2.symm⟩⟩
          · rw [if_neg hl] at h
            cases h
        · rw [if_pos h47] at h
          by_cases hl : 11 ≤ rest.length
          · rw [if_pos hl] at h
            injection h with h1 h2
            exact ⟨h1.symm, Or.inl ⟨h47, hl, h2.symm⟩⟩
          · rw [if_neg hl] at h
            cases h


/-- The string behind every pointer `to_path` returns. -/
theorem to_path_ptr_string (req : List Nat) (start : Nat) (mem : List Nat)
    (h : to_path req = .ptr start mem) :
    ∃ M x seg rest, req = M ++ 32 :: x :: (seg ++ 32 :: rest)
      ∧ (∀ c ∈ M, c ≠ 32 ∧ c ≠ 0) ∧ (∀ c ∈ seg, c ≠ 32 ∧ c ≠ 0)
      ∧ start = M.length + 2
      ∧ c_string mem start
        = some (seg ++ (if (x :: seg).getLast? = some 47 then [] else [47]) ++ DEFAULT_FILE) := by
  obtain ⟨M, x, seg, rest, c, hreq, hM, hseg, hc, hstart, hmem⟩ := to_path_ptr_inv req start mem h
  refine ⟨M, x, seg, rest, hreq, hM, hseg, hstart, ?_⟩
  rw [hstart, hc]
  rcases hmem with ⟨h47, _, hm⟩ | ⟨h47, _, hm⟩
  · have hne : ¬ (some c = some 47) := fun e => h47 (Option.some.inj e)
    rw [if_neg hne, hm]
    have hseg' : ∀ d ∈ seg ++ [47], d ≠ 32 ∧ d ≠ 0 := by
      intro d hd
      rcases List.mem_append.mp hd with e | e
      · exact hseg d e
      · simp at e; subst e; decide
    have e := c_string_with_slash M (seg ++ [47]) (rest.drop 11) x hseg'
    have e1 : seg ++ [47] ++ (DEFAULT_FILE ++ 0 :: List.drop 11 rest)
        = seg ++ 47 :: (DEFAULT_FILE ++ 0 :: List.drop 11 rest) := by simp
    rw [e1] at e
    exact e
  · rw [h47, if_pos rfl, hm, List.append_nil]
    exact c_string_with_slash M seg _ x hseg

theorem getLast?_cons_ne (x : Nat) (seg : List Nat) (hx : x ≠ 47) :
    (x :: seg).getLast? = some 47 ↔ seg.getLast? = some 47 := by
  cases seg with
  | nil => simp [hx]
  | cons y ys => rw [List.getLast?_cons_cons]

theorem getLast?_cons_slash (seg : List Nat) :
    (47 :: seg).getLast? = some 47 ↔ (seg = [] ∨ seg.getLast? = some 47) := by
  cases seg with
  | nil => simp
  | cons y ys => rw [List.getLast?_cons_cons]; simp

/-! ### The claims on what `to_path` accepts -/

set_option maxRecDepth 100000 in
/-- C14: the path token of `GET blog HTTP/1.1...` has no leading slash, and
`GET HTTP/1.1...` has no path at all.  `start += 2` skips the byte behind the
first space without looking at it, so `to_path` returns a pointer instead of
a null pointer: to `log/index.html` on the first request, and to
`TTP/1.1`, line feed, `Host:/index.html` on the second. -/
theorem to_path_accepts_missing_slash :
    to_path (str "GET blog HTTP/1.1\nHost: example.com" ++ [0])
        = .ptr 5 (str "GET blog/index.html" ++ 0 :: str "st: example.com" ++ [0])
    ∧ c_string (str "GET blog/index.html" ++ 0 :: str "st: example.com" ++ [0]) 5
        = some (str "log/index.html")
    ∧ to_path (str "GET blog HTTP/1.1\nHost: example.com" ++ [0]) ≠ .null
    ∧ to_path (str "GET HTTP/1.1\nHost: example.com" ++ [0])
        = .ptr 5 (str "GET HTTP/1.1\nHost:/index.html" ++ [0, 0])
    ∧ c_string (str "GET HTTP/1.1\nHost:/index.html" ++ [0, 0]) 5
        = some (str "TTP/1.1\nHost:/index.html") := by
  decide

/-- What `to_path` does when the byte behind the first space is not a slash:
it never looks at that byte.  On a block `M`, space, a byte `x` other than
`/`, `seg`, space, REST of at least 10 bytes, terminator, it returns a pointer
to `seg`, followed by a slash unless `seg` ends in one, followed by
`index.html`; it returns a null pointer when the terminator comes before a
second space. -/
theorem to_path_skips_unchecked_byte (M seg REST tail : List Nat) (x : Nat)
    (hM : ∀ c ∈ M, c ≠ 32 ∧ c ≠ 0) (hseg : ∀ c ∈ seg, c ≠ 32 ∧ c ≠ 0)
    (hx : x ≠ 47) (hR : 10 ≤ REST.length) :
    (∃ mem, to_path (M ++ 32 :: x :: (seg ++ 32 :: (REST ++ 0 :: tail)))
        = .ptr (M.length + 2) mem
      ∧ c_string mem (M.length + 2)
        = some (seg ++ (if seg.getLast? = some 47 then str "index.html"
            else str "/index.html")))
    ∧ to_path (M ++ 32 :: x :: (seg ++ 0 :: tail)) = .null := by
  refine ⟨?_, to_path_one_space M seg tail x hM hseg⟩
  obtain ⟨mem, h1, h2⟩ := to_path_returns M seg REST tail x hM hseg hR
  refine ⟨mem, h1, ?_⟩
  rw [h2]
  by_cases hl : seg.getLast? = some 47
  · rw [if_pos ((getLast?_cons_ne x seg hx).mpr hl), if_pos hl]
    simp [DEFAULT_FILE]
  · rw [if_neg (fun h => hl ((getLast?_cons_ne x seg hx).mp h)), if_neg hl]
    simp [DEFAULT_FILE, str]

/-- C15: the request ` /blog HTTP/1.1...` starts with the separator, so its
method is empty.  The first loop of `to_path` stops at once, nothing checks
that it walked over a method, and `to_path` returns a pointer, to the string
`blog/index.html`, instead of a null pointer. -/
theorem to_path_accepts_empty_method :
    to_path (str " /blog HTTP/1.1\nHost: example.com" ++ [0])
        = .ptr 2 (str " /blog/index.html" ++ 0 :: str "st: example.com" ++ [0])
    ∧ c_string (str " /blog/index.html" ++ 0 :: str "st: example.com" ++ [0]) 2
        = some (str "blog/index.html")
    ∧ to_path (str " /blog HTTP/1.1\nHost: example.com" ++ [0]) ≠ .null := by
  decide

/-- What `to_path` does on an empty method in general.  On a block that
starts with the separator, ` /<segment> REST` with REST of at least 10 bytes,
it returns a pointer to `<segment>`, followed by a slash unless the segment is
empty or ends in one, followed by `index.html`. -/
theorem to_path_empty_method (seg REST tail : List Nat)
    (hseg : ∀ c ∈ seg, c ≠ 32 ∧ c ≠ 0) (hR : 10 ≤ REST.length) :
    ∃ mem, to_path (str " /" ++ seg ++ str " " ++ REST ++ 0 :: tail) = .ptr 2 mem
      ∧ c_string mem 2
        = some (seg ++ (if seg = [] ∨ seg.getLast? = some 47 then str "index.html"
            else str "/index.html")) := by
  have hbuf : str " /" ++ seg ++ str " " ++ REST ++ 0 :: tail
      = [] ++ 32 :: 47 :: (seg ++ 32 :: (REST ++ 0 :: tail)) := by
    simp [str]
  obtain ⟨mem, h1, h2⟩ := to_path_returns [] seg REST tail 47 (by simp) hseg hR
  refine ⟨mem, by rw [hbuf]; exact h1, ?_⟩
  have h2' : c_string mem 2 = some (seg ++ (if (47 :: seg).getLast? = some 47 then []
      else [47]) ++ DEFAULT_FILE) := h2
  rw [h2']
  by_cases hl : seg = [] ∨ seg.getLast? = some 47
  · rw [if_pos ((getLast?_cons_slash seg).mpr hl), if_pos hl]
    simp [DEFAULT_FILE]
  · rw [if_neg (fun h => hl ((getLast?_cons_slash seg).mp h)), if_neg hl]
    simp [DEFAULT_FILE, str]

set_option maxRecDepth 100000 in
/-- C16: `start += 2` strips one byte behind the first space and looks neither
at it nor at what follows.  On `GET //etc HTTP/1.1...` only the first slash is
stripped and `to_path` returns a pointer to `/etc/index.html`; on
`GET x HTTP/1.1...` the stripped byte is the whole path and `to_path` returns
a pointer to `/index.html`.  Both strings start with a slash. -/
theorem to_path_double_slash :
    to_path (str "GET //etc HTTP/1.1\nHost: example.com" ++ [0])
        = .ptr 5 (str "GET //etc/index.html" ++ 0 :: str "st: example.com" ++ [0])
    ∧ c_string (str "GET //etc/index.html" ++ 0 :: str "st: example.com" ++ [0]) 5
        = some (str "/etc/index.html")
    ∧ (str "/etc/index.html").head? = some 47
    ∧ to_path (str "GET x HTTP/1.1\nHost: example.com" ++ [0])
        = .ptr 5 (str "GET x/index.html" ++ 0 :: str "st: example.com" ++ [0])
    ∧ c_string (str "GET x/index.html" ++ 0 :: str "st: example.com" ++ [0]) 5
        = some (str "/index.html")
    ∧ (str "/index.html").head? = some 47 := by
  decide

/-- C17: on every block on which `to_path` returns a pointer, the string
behind the pointer ends with `index.html`, and that name is either the whole
string or comes right after a slash. -/
theorem to_path_ends_in_default_file (req : List Nat) (start : Nat) (mem : List Nat)
    (h : to_path req = .ptr start mem) :
    ∃ s, c_string mem start = some s
      ∧ str "index.html" <:+ s
      ∧ (s = str "index.html" ∨ ∃ d, s = d ++ str "/index.html") := by
  obtain ⟨M, x, seg, rest, hreq, hM, hseg, hstart, hs⟩ := to_path_ptr_string req start mem h
  refine ⟨_, hs, ?_, ?_⟩
  · exact List.suffix_append _ _
  · by_cases hl : (x :: seg).getLast? = some 47
    · rw [if_pos hl, List.append_nil]
      rcases List.eq_nil_or_concat seg with hnil | ⟨d, b, hd⟩
      · left
        rw [hnil]
        rfl
      · right
        rw [List.concat_eq_append] at hd
        have hb : b = 47 := by
          rw [hd] at hl
          have e : x :: (d ++ [b]) = (x :: d) ++ [b] := rfl
          rw [e, List.getLast?_append] at hl
          simpa using hl
        refine ⟨d, ?_⟩
        rw [hd, hb]
        simp [DEFAULT_FILE, str]
    · right
      rw [if_neg hl]
      refine ⟨seg, ?_⟩
      simp [DEFAULT_FILE, str]

/-- Witness of C17: `GET /blog HTTP/1.1...`. -/
theorem to_path_ends_in_default_file_witness :
    ∃ s, c_string (str "GET /blog/index.html" ++ 0 :: str "st: example.com" ++ [0]) 5 = some s
      ∧ str "index.html" <:+ s
      ∧ (s = str "index.html" ∨ ∃ d, s = d ++ str "/index.html") :=
  to_path_ends_in_default_file (str "GET /blog HTTP/1.1\nHost: example.com" ++ [0]) 5
    (str "GET /blog/index.html" ++ 0 :: str "st: example.com" ++ [0]) (by decide)

/-- Where the writes of `to_path` stay inside the old string.  On a block
with both separators and at least 10 bytes other than NUL between the space
its second loop stops on and the terminator, `to_path` returns a pointer and
leaves the block as it was except for the bytes `written`, which are
`/index.html` or `index.html` with the terminator: they start at that space
and end no later than the old terminator, the NUL that ended the string
behind that space.  No byte before that space changes, and the block keeps
its size.  When the byte `x` behind the first space is not a space, that
space is the second space of the block. -/
theorem to_path_in_bounds (M seg REST tail : List Nat) (x : Nat)
    (hM : ∀ c ∈ M, c ≠ 32 ∧ c ≠ 0) (hseg : ∀ c ∈ seg, c ≠ 32 ∧ c ≠ 0)
    (hREST : ∀ c ∈ REST, c ≠ 0) (hR : 10 ≤ REST.length) :
    ∃ mem written,
      to_path (M ++ 32 :: x :: (seg ++ 32 :: (REST ++ 0 :: tail))) = .ptr (M.length + 2) mem
      ∧ (written = str "/index.html" ++ [0] ∨ written = str "index.html" ++ [0])
      ∧ mem = (M ++ 32 :: x :: (seg ++ 32 :: (REST ++ 0 :: tail))).take (M.length + 2 + seg.length)
          ++ written
          ++ (M ++ 32 :: x :: (seg ++ 32 :: (REST ++ 0 :: tail))).drop
              (M.length + 2 + seg.length + written.length)
      ∧ M.length + 2 + seg.length + written.length - 1
          ≤ M.length + 2 + seg.length + 1 + REST.length
      ∧ (M ++ 32 :: x :: (seg ++ 32 :: (REST ++ 0 :: tail)))[M.length + 2 + seg.length + 1
          + REST.length]? = some 0
      ∧ c_string (M ++ 32 :: x :: (seg ++ 32 :: (REST ++ 0 :: tail)))
          (M.length + 2 + seg.length + 1) = some REST
      ∧ mem.take (M.length + 2 + seg.length)
          = (M ++ 32 :: x :: (seg ++ 32 :: (REST ++ 0 :: tail))).take (M.length + 2 + seg.length)
      ∧ mem.length = (M ++ 32 :: x :: (seg ++ 32 :: (REST ++ 0 :: tail))).length := by
  obtain ⟨c, hc⟩ : ∃ c, (x :: seg).getLast? = some c := by
    cases hl : (x :: seg).getLast? with
    | none => simp at hl
    | some c => exact ⟨c, rfl⟩
  have hsplit : M ++ 32 :: x :: (seg ++ 32 :: (REST ++ 0 :: tail))
      = (M ++ 32 :: x :: seg) ++ 32 :: (REST ++ 0 :: tail) := by simp
  have hpl : (M ++ 32 :: x :: seg).length = M.length + 2 + seg.length := by simp; omega
  have hterm : (M ++ 32 :: x :: (seg ++ 32 :: (REST ++ 0 :: tail)))[M.length + 2 + seg.length + 1
      + REST.length]? = some 0 := by
    rw [hsplit, List.getElem?_append_right (by omega), hpl]
    have e : M.length + 2 + seg.length + 1 + REST.length - (M.length + 2 + seg.length)
        = REST.length + 1 := by omega
    rw [e, List.getElem?_cons_succ, List.getElem?_append_right (le_refl _)]
    simp
  have hcstr : c_string (M ++ 32 :: x :: (seg ++ 32 :: (REST ++ 0 :: tail)))
      (M.length + 2 + seg.length + 1) = some REST := by
    have e : M ++ 32 :: x :: (seg ++ 32 :: (REST ++ 0 :: tail))
        = (M ++ 32 :: x :: (seg ++ [32])) ++ (REST ++ 0 :: tail) := by simp
    have l : M.length + 2 + seg.length + 1 = (M ++ 32 :: x :: (seg ++ [32])).length := by
      simp; omega
    rw [c_string, e, l, List.drop_left']
    · exact cstr_token REST tail hREST
    · rfl
  have hlen11 : 11 ≤ (REST ++ 0 :: tail).length := by simp; omega
  have hlen10 : 10 ≤ (REST ++ 0 :: tail).length := by omega
  have htake : (M ++ 32 :: x :: (seg ++ 32 :: (REST ++ 0 :: tail))).take
      (M.length + 2 + seg.length) = M ++ 32 :: x :: seg := by
    rw [hsplit, ← hpl, List.take_left']
    rfl
  by_cases h47 : c = 47
  · refine ⟨M ++ 32 :: x :: (seg ++ (DEFAULT_FILE ++ 0 :: (REST ++ 0 :: tail).drop 10)),
      str "index.html" ++ [0], ?_, Or.inr rfl, ?_, ?_, hterm, hcstr, ?_, ?_⟩
    · rw [to_path_shape M seg _ x c hM hseg hc, if_neg (by simp [h47]), if_pos hlen10]
    · rw [htake]
      have hdrop : (M ++ 32 :: x :: (seg ++ 32 :: (REST ++ 0 :: tail))).drop
          (M.length + 2 + seg.length + (str "index.html" ++ [0]).length)
          = (REST ++ 0 :: tail).drop 10 := by
        rw [hsplit, ← hpl, List.drop_append]
        rfl
      rw [hdrop]
      simp [DEFAULT_FILE]
    · have : (str "index.html" ++ [0]).length = 11 := by decide
      omega
    · rw [htake]
      have e : M ++ 32 :: x :: (seg ++ (DEFAULT_FILE ++ 0 :: (REST ++ 0 :: tail).drop 10))
          = (M ++ 32 :: x :: seg) ++ (DEFAULT_FILE ++ 0 :: (REST ++ 0 :: tail).drop 10) := by
        simp
      rw [e, ← hpl, List.take_left']
      rfl
    · have hd : DEFAULT_FILE.length = 10 := by decide
      simp only [List.length_append, List.length_cons, List.length_drop, hd]
      simp only [List.length_append, List.length_cons] at hlen10
      omega
  · refine ⟨M ++ 32 :: x :: (seg ++ 47 :: (DEFAULT_FILE ++ 0 :: (REST ++ 0 :: tail).drop 11)),
      str "/index.html" ++ [0], ?_, Or.inl rfl, ?_, ?_, hterm, hcstr, ?_, ?_⟩
    · rw [to_path_shape M seg _ x c hM hseg hc, if_pos h47, if_pos hlen11]
    · rw [htake]
      have hdrop : (M ++ 32 :: x :: (seg ++ 32 :: (REST ++ 0 :: tail))).drop
          (M.length + 2 + seg.length + (str "/index.html" ++ [0]).length)
          = (REST ++ 0 :: tail).drop 11 := by
        rw [hsplit, ← hpl, List.drop_append]
        rfl
      rw [hdrop]
      simp [DEFAULT_FILE, str]
    · have : (str "/index.html" ++ [0]).length = 12 := by decide
      omega
    · rw [htake]
      have e : M ++ 32 :: x :: (seg ++ 47 :: (DEFAULT_FILE ++ 0 :: (REST ++ 0 :: tail).drop 11))
          = (M ++ 32 :: x :: seg) ++ 47 :: (DEFAULT_FILE ++ 0 :: (REST ++ 0 :: tail).drop 11) := by
        simp
      rw [e, ← hpl, List.take_left']
      rfl
    · have hd : DEFAULT_FILE.length = 10 := by decide
      simp only [List.length_append, List.length_cons, List.length_drop, hd]
      simp only [List.length_append, List.length_cons] at hlen11
      omega

set_option maxRecDepth 100000 in
/-- C20: in `GET  /blog HTTP/1.1` the two spaces are at indices 3 and 4 and 14
bytes lie between the second space and the terminator at index 19.
`start += 2` steps over the second space, the second loop stops on the space
at index 10, and `/index.html` with its terminator is written to indices 10
to 21, past the old terminator.  On the 20 byte block this is a write outside
the block; on a block that holds further bytes, the old terminator at index
19 becomes `m` and the new one lands at index 21. -/
theorem to_path_writes_past_terminator :
    (str "GET  /blog HTTP/1.1" ++ [0])[4]? = some 32
    ∧ (str "GET  /blog HTTP/1.1" ++ [0])[19]? = some 0
    ∧ to_path (str "GET  /blog HTTP/1.1" ++ [0]) = .fault
    ∧ to_path (str "GET  /blog HTTP/1.1" ++ 0 :: str "abc" ++ [0])
        = .ptr 5 (str "GET  /blog/index.html" ++ 0 :: str "c" ++ [0])
    ∧ (str "GET  /blog HTTP/1.1" ++ 0 :: str "abc" ++ [0])[19]? = some 0
    ∧ (str "GET  /blog/index.html" ++ 0 :: str "c" ++ [0])[19]? = some 109
    ∧ (str "GET  /blog HTTP/1.1" ++ 0 :: str "abc" ++ [0])[21]? = some 98
    ∧ (str "GET  /blog/index.html" ++ 0 :: str "c" ++ [0])[21]? = some 0 := by
  decide

/-! ### The file handle -/

theorem closes_append (a b : List Event) : closes (a ++ b) = closes a + closes b := by
  induction a with
  | nil => simp [closes]
  | cons e es ih => cases e <;> simp [closes, ih]; omega

theorem closes_of_writes (evs : List Event)
    (h : ∀ e ∈ evs, ∃ b n, e = Event.sys_write b n) : closes evs = 0 := by
  induction evs with
  | nil => rfl
  | cons e es ih =>
    obtain ⟨b, n, he⟩ := h e (List.mem_cons_self _ _)
    rw [he]
    simp only [closes]
    exact ih (fun d hd => h d (List.mem_cons_of_mem _ hd))

theorem closes_send_simple_response (sock : List WriteResult) (status : List Nat)
    (ct body : Option (List Nat)) : closes (send_simple_response sock status ct body).2 = 0 :=
  closes_of_writes _ (send_simple_response_events sock status ct body)

theorem closes_end (close_ok : Bool) :
    closes (if close_ok = true then [] else [Event.perror]) = 0 := by
  cases close_ok <;> rfl

theorem closes_sys_open (path : List Nat) (es : List Event) :
    closes (Event.sys_open path :: es) = closes es := rfl

theorem closes_sys_fstat (es : List Event) : closes (Event.sys_fstat :: es) = closes es := rfl

theorem closes_sys_read (n : Int) (es : List Event) :
    closes (Event.sys_read n :: es) = closes es := rfl

theorem closes_sys_close (es : List Event) :
    closes (Event.sys_close :: es) = closes es + 1 := rfl

/-- The streaming loop closes the file once. -/
theorem closes_stream_file (close_ok : Bool) (reads : List ReadResult)
    (sock : List WriteResult) : closes (stream_file close_ok reads sock) = 1 := by
  induction reads generalizing sock with
  | nil => simp only [stream_file, closes_sys_read, closes_sys_close, closes_end]
  | cons r reads ih =>
    cases r with
    | fail => simp only [stream_file, closes_sys_read, closes_sys_close, closes_end]
    | data bytes =>
      by_cases h0 : bytes.length = 0
      · simp only [stream_file, h0, if_true, closes_sys_read, closes_sys_close, closes_end]
      · by_cases h1 : (write_all sock bytes).1 = -1
        · simp only [stream_file, h0, h1, if_true, if_false, closes_sys_read, closes_append,
            closes_of_writes _ (write_all_events sock bytes)]
          rfl
        · simp only [stream_file, h0, h1, if_false, closes_sys_read, closes_append,
            closes_of_writes _ (write_all_events sock bytes), ih, Nat.zero_add]

/-- C18: on every execution of `handle_req`, whatever `open`, `fstat`, the
reads and the writes return, the trace holds no `close` call when the request
is malformed or `open` fails, and exactly one `close` call when `open`
succeeds. -/
theorem handle_req_closes (request : List Nat) (w : World) (evs : List Event)
    (h : handle_req request w = some evs) :
    (to_path request = .null → closes evs = 0)
    ∧ ∀ start mem path, to_path request = .ptr start mem → c_string mem start = some path →
      (∀ errno, w.fs path = .error errno → closes evs = 0)
      ∧ (∀ f, w.fs path = .fd f → closes evs = 1) := by
  refine ⟨?_, ?_⟩
  · intro hp
    simp only [handle_req, hp, Option.some.injEq] at h
    rw [← h]
    exact closes_send_simple_response _ _ _ _
  · intro start mem path hp hs
    refine ⟨?_, ?_⟩
    · intro errno hf
      by_cases he : errno = ENOENT
      · simp only [handle_req, hp, hs, hf, if_pos he, Option.some.injEq] at h
        rw [← h]
        simp only [closes_sys_open, closes_sys_fstat, closes_sys_close, closes_send_simple_response]
      · simp only [handle_req, hp, hs, hf, if_neg he, Option.some.injEq] at h
        rw [← h]
        simp only [closes_sys_open, closes_sys_fstat, closes_sys_close, closes_send_simple_response]
    · intro f hf
      cases hz : f.st_size with
      | none =>
        simp only [handle_req, hp, hs, hf, hz, Option.some.injEq] at h
        rw [← h]
        simp only [closes_sys_open, closes_sys_fstat, closes_sys_close, closes_send_simple_response]
      | some size =>
        rw [handle_req_ok request w start mem path f size hp hs hf hz] at h
        simp only [Option.some.injEq] at h
        rw [← h]
        simp only [closes_sys_open, closes_sys_fstat, closes_append,
          closes_of_writes _ (write_all_events _ _), Nat.zero_add]
        split_ifs
        · rfl
        · exact closes_stream_file _ _ _

/-- Witness of C18: a request served from a file whose second `read` fails and
whose `close` fails closes the file once. -/
theorem handle_req_closes_witness :
    closes [Event.sys_open (str "blog/index.html"), Event.sys_fstat,
        Event.sys_write (str "HTTP/1.1 200 OK\r\nContent-Type: text/html; charset=utf-8\r\nContent-Length: 5\r\nConnection: close\r\n\r\n") 97,
        Event.sys_read 3, Event.sys_write (str "hel") 3, Event.sys_read (-1),
        Event.sys_close, Event.perror] = 1 :=
  ((handle_req_closes (str "GET /blog HTTP/1.1\nHost: example.com" ++ [0])
      { fs := fun _ => .fd broken_file, sock := [] } _ (by decide)).2 5
      (str "GET /blog/index.html" ++ 0 :: str "st: example.com" ++ [0])
      (str "blog/index.html") (by decide) (by decide)).2 broken_file rfl


/-! ### After a failure -/

theorem quiet_append (a b : List Event) (ha : quiet a) (hb : quiet b)
    (hab : failed a → offered b = []) : quiet (a ++ b) := by
  induction a with
  | nil => exact hb
  | cons e es ih =>
    cases e with
    | sys_write buf n =>
      simp only [quiet, failed, List.cons_append] at ha hab ⊢
      refine ⟨fun hn => ?_, ih ha.2 (fun hf => hab (Or.inr hf))⟩
      show offered (es ++ b) = []
      rw [offered_append, ha.1 hn, hab (Or.inl hn)]
      rfl
    | sys_read n =>
      simp only [quiet, failed, List.cons_append] at ha hab ⊢
      refine ⟨fun hn => ?_, ih ha.2 (fun hf => hab (Or.inr hf))⟩
      show offered (es ++ b) = []
      rw [offered_append, ha.1 hn, hab (Or.inl hn)]
      rfl
    | sys_open p => exact ih ha hab
    | sys_fstat => exact ih ha hab
    | sys_close => exact ih ha hab
    | perror => exact ih ha hab

/-- In a quiet trace no `write` call follows a failed `write` call. -/
theorem quiet_after_write (evs pre post : List Event) (b : List Nat) (n : Int)
    (hq : quiet evs) (h : evs = pre ++ Event.sys_write b n :: post) (hn : n < 0) :
    offered post = [] := by
  subst h
  induction pre with
  | nil => exact hq.1 hn
  | cons e es ih =>
    cases e with
    | sys_write buf m => exact ih hq.2
    | sys_read m => exact ih hq.2
    | sys_open p => exact ih hq
    | sys_fstat => exact ih hq
    | sys_close => exact ih hq
    | perror => exact ih hq

/-- In a quiet trace no `write` call follows a failed `read` call. -/
theorem quiet_after_read (evs pre post : List Event) (n : Int)
    (hq : quiet evs) (h : evs = pre ++ Event.sys_read n :: post) (hn : n < 0) :
    offered post = [] := by
  subst h
  induction pre with
  | nil => exact hq.1 hn
  | cons e es ih =>
    cases e with
    | sys_write buf m => exact ih hq.2
    | sys_read m => exact ih hq.2
    | sys_open p => exact ih hq
    | sys_fstat => exact ih hq
    | sys_close => exact ih hq
    | perror => exact ih hq

theorem quiet_sys_open (path : List Nat) (es : List Event) :
    quiet (Event.sys_open path :: es) = quiet es := rfl

theorem quiet_sys_fstat (es : List Event) : quiet (Event.sys_fstat :: es) = quiet es := rfl

theorem quiet_sys_close (es : List Event) : quiet (Event.sys_close :: es) = quiet es := rfl

/-- The calls of `write_all` are quiet, and one of them fails only when
`write_all` returns -1. -/
theorem write_all_quiet (sock : List WriteResult) (buf : List Nat) :
    quiet (write_all sock buf).2.2
    ∧ (failed (write_all sock buf).2.2 → (write_all sock buf).1 = -1) := by
  induction sock generalizing buf with
  | nil =>
    unfold write_all
    by_cases hb : buf.length = 0
    · simp [hb, quiet, failed]
    · simp only [hb, if_false, quiet, failed, and_true, or_false]
      constructor
      · intro h; omega
      · intro h; omega
  | cons r sock ih =>
    unfold write_all
    by_cases hb : buf.length = 0
    · simp [hb, quiet, failed]
    · rcases sys_write_bounds r buf.length with hn | ⟨m, hle, hn⟩
      · have hneg : sys_write r buf.length < 0 := by rw [hn]; decide
        simp only [hb, hneg, if_true, if_false, quiet, failed, and_true, or_false]
        exact ⟨fun _ => rfl, fun _ => trivial⟩
      · have hnn : ¬ ((m : Int) < 0) := by omega
        simp only [hb, hn, hnn, if_false, Int.toNat_ofNat, quiet, failed, false_or]
        exact ⟨⟨fun h => h.elim, (ih _).1⟩, (ih _).2⟩

theorem offered_close_end (close_ok : Bool) :
    offered (Event.sys_close :: (if close_ok = true then [] else [Event.perror])) = [] := by
  cases close_ok <;> rfl

theorem quiet_close_end (close_ok : Bool) :
    quiet (Event.sys_close :: (if close_ok = true then [] else [Event.perror])) := by
  cases close_ok <;> simp [quiet]

/-- The calls of `send_simple_response` are quiet. -/
theorem send_simple_response_quiet (sock : List WriteResult) (status : List Nat)
    (ct body : Option (List Nat)) : quiet (send_simple_response sock status ct body).2 := by
  by_cases hfit : (spec_header status (ct.getD (str "text/plain; charset=utf-8"))
      (body.getD []).length).length < 256
  · rw [send_simple_response_fits sock status ct body hfit]
    split_ifs with h1 h2
    · exact (write_all_quiet _ _).1
    · refine quiet_append _ _ (write_all_quiet _ _).1 (write_all_quiet _ _).1 (fun hf => ?_)
      exact absurd ((write_all_quiet _ _).2 hf) h1
    · exact (write_all_quiet _ _).1
  · rw [send_simple_response_overflow sock status ct body (Nat.le_of_not_lt hfit)]
    trivial

/-- The calls of the streaming loop are quiet. -/
theorem stream_file_quiet (close_ok : Bool) (reads : List ReadResult)
    (sock : List WriteResult) : quiet (stream_file close_ok reads sock) := by
  induction reads generalizing sock with
  | nil =>
    simp only [stream_file, quiet]
    exact ⟨fun _ => offered_close_end close_ok, quiet_close_end close_ok⟩
  | cons r reads ih =>
    cases r with
    | fail =>
      simp only [stream_file, quiet]
      exact ⟨fun _ => offered_close_end close_ok, quiet_close_end close_ok⟩
    | data bytes =>
      by_cases h0 : bytes.length = 0
      · simp only [stream_file, h0, if_true, quiet]
        exact ⟨fun _ => offered_close_end close_ok, quiet_close_end close_ok⟩
      · have hnn : ¬ ((bytes.length : Int) < 0) := by omega
        by_cases h1 : (write_all sock bytes).1 = -1
        · simp only [stream_file, h0, h1, if_true, if_false, quiet]
          refine ⟨fun h => absurd h hnn, ?_⟩
          exact quiet_append _ _ (write_all_quiet _ _).1 (by simp [quiet]) (fun _ => rfl)
        · simp only [stream_file, h0, h1, if_false, quiet]
          refine ⟨fun h => absurd h hnn, ?_⟩
          exact quiet_append _ _ (write_all_quiet _ _).1 (ih _)
            (fun hf => absurd ((write_all_quiet _ _).2 hf) h1)

/-- Every trace of `handle_req` is quiet. -/
theorem handle_req_quiet (request : List Nat) (w : World) (evs : List Event)
    (h : handle_req request w = some evs) : quiet evs := by
  cases hp : to_path request with
  | fault => simp [handle_req, hp] at h
  | null =>
    simp only [handle_req, hp, Option.some.injEq] at h
    rw [← h]
    simp only [send_simple_response_quiet]
  | ptr start mem =>
    cases hs : c_string mem start with
    | none => simp [handle_req, hp, hs] at h
    | some path =>
      cases hf : w.fs path with
      | error errno =>
        by_cases he : errno = ENOENT
        · simp only [handle_req, hp, hs, hf, if_pos he, Option.some.injEq] at h
          rw [← h]
          simp only [quiet_sys_open, send_simple_response_quiet]
        · simp only [handle_req, hp, hs, hf, if_neg he, Option.some.injEq] at h
          rw [← h]
          simp only [quiet_sys_open, send_simple_response_quiet]
      | fd f =>
        cases hz : f.st_size with
        | none =>
          simp only [handle_req, hp, hs, hf, hz, Option.some.injEq] at h
          rw [← h]
          simp only [quiet_sys_open, quiet_sys_fstat, quiet_sys_close,
            send_simple_response_quiet]
        | some size =>
          rw [handle_req_ok request w start mem path f size hp hs hf hz] at h
          simp only [Option.some.injEq] at h
          rw [← h, quiet_sys_open, quiet_sys_fstat]
          by_cases h1 : (write_all w.sock (spec_header (str "HTTP/1.1 200 OK")
              (mime_from_path path) (size % 2 ^ 64))).1 = -1
          · rw [if_pos h1]
            exact quiet_append _ _ (write_all_quiet _ _).1 (by simp [quiet]) (fun _ => rfl)
          · rw [if_neg h1]
            exact quiet_append _ _ (write_all_quiet _ _).1 (stream_file_quiet _ _ _)
              (fun hf' => absurd ((write_all_quiet _ _).2 hf') h1)

/-- C19: in every execution of `handle_req`, its calls of
`send_simple_response` included, no `write` call follows a `write` call that
failed, and no `write` call follows a `read` call that failed: after a failing
read behind the 200 header nothing more is written. -/
theorem handle_req_stops_after_failure (request : List Nat) (w : World) (evs : List Event)
    (h : handle_req request w = some evs) :
    (∀ pre b n post, evs = pre ++ Event.sys_write b n :: post → n < 0 → offered post = [])
    ∧ (∀ pre n post, evs = pre ++ Event.sys_read n :: post → n < 0 → offered post = []) :=
  ⟨fun pre b n post he hn => quiet_after_write evs pre post b n
      (handle_req_quiet request w evs h) he hn,
   fun pre n post he hn => quiet_after_read evs pre post n
      (handle_req_quiet request w evs h) he hn⟩

/-- Witness of C19: a request served from a file whose second `read` fails;
the failed `read` is followed by `close` and `perror` only. -/
theorem handle_req_stops_after_failure_witness :
    offered [Event.sys_close, Event.perror] = [] :=
  (handle_req_stops_after_failure (str "GET /blog HTTP/1.1\nHost: example.com" ++ [0])
      { fs := fun _ => .fd broken_file, sock := [] }
      [Event.sys_open (str "blog/index.html"), Event.sys_fstat,
        Event.sys_write (str "HTTP/1.1 200 OK\r\nContent-Type: text/html; charset=utf-8\r\nContent-Length: 5\r\nConnection: close\r\n\r\n") 97,
        Event.sys_read 3, Event.sys_write (str "hel") 3, Event.sys_read (-1),
        Event.sys_close, Event.perror] (by decide)).2
    [Event.sys_open (str "blog/index.html"), Event.sys_fstat,
        Event.sys_write (str "HTTP/1.1 200 OK\r\nContent-Type: text/html; charset=utf-8\r\nContent-Length: 5\r\nConnection: close\r\n\r\n") 97,
        Event.sys_read 3, Event.sys_write (str "hel") 3]
    (-1) [Event.sys_close, Event.perror] rfl (by decide)


/-! ### The content type of the success path -/

/-- A path that ends in `index.html` has the HTML type. -/
theorem mime_index_html (pre : List Nat) :
    mime_from_path (pre ++ DEFAULT_FILE) = str "text/html; charset=utf-8" := by
  have hsplit : pre ++ DEFAULT_FILE = (pre ++ str "index") ++ 46 :: str "html" := by
    have e : DEFAULT_FILE = str "index" ++ 46 :: str "html" := by decide
    rw [e, List.append_assoc]
  have hdot : 46 ∉ str "html" := by decide
  rw [hsplit]
  simp only [mime_from_path, strrchr_last (pre ++ str "index") (str "html") 46 hdot,
    List.drop_one, List.tail_cons, true_or, if_true]

/-- C21: on every block on which `to_path` returns a pointer, the string
behind it has the type `text/html; charset=utf-8` under `mime_from_path`.
Hence whenever `open` and `fstat` succeed, the one response `handle_req`
sends is the 200 response with that content type: no other entry of the MIME
table reaches a header of `handle_req`. -/
theorem handle_req_always_html (request : List Nat) (w : World) (start : Nat)
    (mem : List Nat) (h : to_path request = .ptr start mem) :
    ∃ path, c_string mem start = some path
      ∧ mime_from_path path = str "text/html; charset=utf-8"
      ∧ ∀ f size, w.fs path = .fd f → f.st_size = some size →
        ∃ evs, handle_req request w = some evs ∧ sends_one_response evs w.sock
          (spec_header (str "HTTP/1.1 200 OK") (str "text/html; charset=utf-8")
            (size % 2 ^ 64))
          (delivered f.reads) := by
  obtain ⟨M, x, seg, rest, _, _, _, _, hs⟩ := to_path_ptr_string request start mem h
  have hm := mime_index_html (seg ++ (if (x :: seg).getLast? = some 47 then [] else [47]))
  refine ⟨_, hs, hm, ?_⟩
  intro f size hf hz
  obtain ⟨evs, he, hsend⟩ := sends_ok request w start mem _ f size h hs hf hz
  rw [hm] at hsend
  exact ⟨evs, he, hsend⟩

/-- Witness of C21: `GET /style.css` is served from `style.css/index.html`,
as HTML. -/
theorem handle_req_always_html_witness :
    ∃ path, c_string (str "GET /style.css/index.html" ++ 0 :: str "st: example.com" ++ [0]) 5
        = some path
      ∧ mime_from_path path = str "text/html; charset=utf-8"
      ∧ ∀ f size, hello_fs path = .fd f → f.st_size = some size →
        ∃ evs, handle_req (str "GET /style.css HTTP/1.1\nHost: example.com" ++ [0])
            { fs := hello_fs, sock := [] } = some evs
          ∧ sends_one_response evs []
            (spec_header (str "HTTP/1.1 200 OK") (str "text/html; charset=utf-8")
              (size % 2 ^ 64))
            (delivered f.reads) :=
  handle_req_always_html (str "GET /style.css HTTP/1.1\nHost: example.com" ++ [0])
    { fs := hello_fs, sock := [] } 5
    (str "GET /style.css/index.html" ++ 0 :: str "st: example.com" ++ [0]) (by decide)

end CWorkshop
